import Mathlib

/-!
# orange: schema loader and query builder

A shallow embedding of the Go package `orange` (table.go, sql.go) and the
properties of its name mangler, schema loader and query renderer.

Go strings are modelled by Lean strings read as their sequence of characters.
`unicode.IsUpper`, `unicode.IsLower` and `strings.ToLower` are the ASCII ones
(`Char.isUpper`, `Char.isLower`, `Char.toLower`); on ASCII text a byte offset
and a character index are the same number, so `capIndex` holds positions in
the character list.
-/

namespace Orange

/-! ## Go string primitives -/

/-- Go `strings.ToLower` (ASCII letters are folded, every other character is kept). -/
def toLower (s : String) : String := ⟨s.data.map Char.toLower⟩

/-- Go slice expression `s[lo:hi]`. -/
def slice (s : String) (lo hi : Nat) : String := ⟨(s.data.take hi).drop lo⟩

/-- Go slice expression `s[lo:]`. -/
def sliceFrom (s : String) (lo : Nat) : String := ⟨s.data.drop lo⟩

/-- Go slice expression `s[:hi]`. -/
def sliceTo (s : String) (hi : Nat) : String := ⟨s.data.take hi⟩

/-! ## table.go: tabulizeName -/

/-- writeSnake writes n in b with a snake case (table.go, `writeSnake`); the
buffer is passed in and the new buffer content returned. -/
def writeSnake (b : String) (n : String) : String :=
  if b.length == 0 then b ++ toLower n
  else b ++ "_" ++ toLower n

/-- The first loop of `tabulizeName`: the positions of the uppercase
characters, `i` being the position of the head of the remaining input. -/
def capIndexFrom : Nat → List Char → List Nat
  | _, [] => []
  | i, ch :: rest =>
    if ch.isUpper then i :: capIndexFrom (i + 1) rest else capIndexFrom (i + 1) rest

/-- The value of `isFirstLower` after the first loop of `tabulizeName`:
`unicode.IsLower` of the character at position 0. -/
def isFirstLower (name : String) : Bool :=
  match name.data with
  | [] => false
  | ch :: _ => ch.isLower

/-- The `default` arm of the `for`/`switch` of `tabulizeName` (at least two
uppercase positions). The list argument is `capIndex[i:]`, so its head is
`capIndex[i]`, the next element `capIndex[i+1]`, and a one-element list means
`i == lenCap-1`. The other arguments are the loop variables `i`, `left`,
`piling` and the buffer; the result is the buffer at `break END`. -/
def tabulizeLoop (name : String) (firstLower : Bool) :
    List Nat → Nat → Nat → Bool → String → String
  | [], _, _, _, buf => buf
  | [c], _, left, piling, buf =>
    let buf := if piling then writeSnake buf (slice name left c) else buf
    writeSnake buf (sliceFrom name c)
  | c :: next :: rest, i, left, piling, buf =>
    let buf := if i == 0 && firstLower then writeSnake buf (sliceTo name c) else buf
    if piling && next - c != 1 then
      tabulizeLoop name firstLower (next :: rest) (i + 1) next false
        (writeSnake (writeSnake buf (slice name left c)) (slice name c next))
    else if next - c == 1 then
      tabulizeLoop name firstLower (next :: rest) (i + 1)
        (if !piling then c else left) true buf
    else
      tabulizeLoop name firstLower (next :: rest) (i + 1) next piling
        (writeSnake buf (slice name left next))

/-- tabulizeName changes name to a good database name (table.go, `tabulizeName`). -/
def tabulizeName (name : String) : String :=
  if name == "" then ""
  else if toLower name == "id" then "id"
  else
    let capIndex := capIndexFrom 0 name.data
    let lenCap := capIndex.length
    if lenCap == 0 then name
    else
      match capIndex with
      | [c] =>
        if c == 0 then writeSnake "" name
        else writeSnake (writeSnake "" (slice name 0 c)) (sliceFrom name c)
      | caps => tabulizeLoop name (isFirstLower name) caps 0 0 false ""

/-! ## Go values as the package sees them through reflection -/

/-- Go `error` values, identified by their message. -/
abbrev Error := String

/-- ErrNoField is returned when the field is not found (table.go). -/
def ErrNoField : Error := "no field found"

/-- ErrNoFlag is returned when the flag is not found (table.go). -/
def ErrNoFlag : Error := "no flag found"

/-- Go `reflect.Kind`. -/
inductive Kind where
  | Invalid | Bool | Int | Int8 | Int16 | Int32 | Int64
  | Uint | Uint8 | Uint16 | Uint32 | Uint64 | Uintptr
  | Float32 | Float64 | Complex64 | Complex128
  | Array | Chan | Func | Interface | Map | Ptr | Slice | String | Struct | UnsafePointer
  deriving DecidableEq, Repr

/-- A `reflect.Type` as far as the package reads it: its `Kind()` and the
name that identifies it (`time.Time` is `⟨Struct, "time.Time"⟩`). -/
structure GoType where
  kind : Kind
  name : String
  deriving DecidableEq, Repr

/-- An `interface{}` used as data: the content of a struct field
(`fv.Interface()`) or a query argument. `nil` is the nil interface, which is
what a field of interface type that holds nothing gives. `other` is a value of
any type not listed before it and whose kind is not String; the package only
ever compares such a value with the zero value of its type and prints it, so
it is given by the name of its type, by whether `reflect.DeepEqual` finds it
equal to that zero value, and by the text `fmt.Sprint` prints for it. -/
inductive Value where
  | nil
  | bool (b : Bool)
  | int (n : Int)
  | int64 (n : Int)
  | str (s : String)
  | other (typeName : String) (zero : Bool) (text : String)
  deriving DecidableEq, Repr

/-- Go `token.IsExported` for a name whose first character is ASCII: the name
starts with an uppercase letter. -/
def isExported (name : String) : Bool :=
  match name.data with
  | [] => false
  | ch :: _ => ch.isUpper

/-- A declared struct field (`reflect.StructField`): `Name`, `Type`, the value
of `Tag.Get("sql")` (empty when the field has no sql annotation) and
`IsExported()`, which the compiler decides from the first letter of the name
(by default the test on an ASCII first letter). Reflection lets a caller read
(`Value.Interface`) and set only exported fields. -/
structure StructField where
  name : String
  typ : GoType
  tag : String
  exported : Bool := isExported name
  deriving DecidableEq, Repr

/-- A struct type: `Name()` and the declared fields in declaration order
(no embedded fields). -/
structure StructType where
  name : String
  fields : List StructField
  deriving DecidableEq, Repr

/-- A struct value: its type and the contents of its fields, by position. -/
structure StructValue where
  typ : StructType
  vals : List Value
  deriving DecidableEq, Repr

/-- A Go value passed as `interface{}` where the package inspects its shape
(`model`, `value`, `query`): the nil interface, a struct, a non-nil pointer to
a value, a nil pointer (with the name of the type it points to) and, under
`val`, any value that is neither a struct nor a pointer. -/
inductive GoValue where
  | nil
  | val (v : Value)
  | struct (s : StructValue)
  | ptr (elem : GoValue)
  | nilPtr (elemType : String)
  deriving DecidableEq, Repr

/-- Whether `reflect.DeepEqual` finds a value equal to the zero value of the
type the value itself has. -/
def Value.isZero : Value → Bool
  | .nil => true
  | .bool b => !b
  | .int n => n == 0
  | .int64 n => n == 0
  | .str s => s == ""
  | .other _ zero _ => zero

/-- Go `fmt.Sprint` of an integer (the verb `%d`): decimal digits, with a
leading minus sign for a negative number. -/
def fmtInt : Int → String
  | .ofNat n => Nat.repr n
  | .negSucc n => "-" ++ Nat.repr (n + 1)

/-- Go `fmt.Sprint(val)` (and the verb `%v`). -/
def Value.sprint : Value → String
  | .nil => "<nil>"
  | .bool b => if b then "true" else "false"
  | .int n => fmtInt n
  | .int64 n => fmtInt n
  | .str s => s
  | .other _ _ text => text

/-- Name of the dynamic type of a data value (`reflect.TypeOf(v).Name()`); the
empty name stands for the interface type of a variable that holds nil. -/
def Value.typeName : Value → String
  | .nil => ""
  | .bool _ => "bool"
  | .int _ => "int"
  | .int64 _ => "int64"
  | .str _ => "string"
  | .other n _ _ => n

/-- Go `reflect.DeepEqual(reflect.Zero(fv.Type()).Interface(), fv.Interface())`
for a struct field of declared type `typ` and content `fv`, as the loop of
`Values` computes it. `fv.Type()` is the declared type of the field. For a
field of interface type `reflect.Zero` gives the nil interface, and DeepEqual
finds only the nil content equal to it: an interface field that holds 0, ""
or false is not zero. The content of any other field has the declared type
and is compared with the zero value of that type. -/
def isZeroField (typ : GoType) (fv : Value) : Bool :=
  if typ.kind == Kind.Interface then fv == Value.nil else fv.isZero

/-- Go `reflect.Value.FieldByName` on a struct value: the declared field of
that name with its content, or `none` for the invalid (zero) Value. -/
def StructValue.FieldByName (s : StructValue) (name : String) : Option (StructField × Value) :=
  (s.typ.fields.zip s.vals).find? (fun p => p.1.name == name)

/-! ## table.go: tables, fields, tags -/

/-- The `tag` struct of table.go. -/
structure Tag where
  name : String
  key : String
  value : String
  deriving DecidableEq, Repr

/-- The `field` struct of table.go; a nil `tags` slice is the empty list. -/
structure Field where
  name : String
  typ : GoType
  tags : List Tag
  deriving DecidableEq, Repr

/-- The `table` struct of table.go; nil slices are the empty lists. -/
structure Table where
  name : String
  fields : List Field
  tags : List Tag
  deriving DecidableEq, Repr

/-- Name returns the table name. -/
def Table.Name (t : Table) : String := t.name

/-- Size returns the number of fields present in this table. -/
def Table.Size (t : Table) : Nat := t.fields.length

/-- Fields returns the fields of the table, or ErrNoField when `t.fields` is nil. -/
def Table.Fields (t : Table) : List Field × Option Error :=
  if t.fields != [] then (t.fields, none) else ([], some ErrNoField)

/-- Flags returns the tags held by the field, or ErrNoFlag when `f.tags` is nil. -/
def Field.Flags (f : Field) : List Tag × Option Error :=
  if f.tags != [] then (f.tags, none) else ([], some ErrNoFlag)

/-- ColumnName of table.go: the value of the first tag named "field_name",
otherwise the mangled field name. -/
def Field.ColumnName (f : Field) : String :=
  match f.tags.find? (fun v => v.name == "field_name") with
  | some v => v.value
  | none => tabulizeName f.name

/-- Go `strings.Split(s, sep)` for a one-character separator, on character lists. -/
def splitChars (sep : Char) : List Char → List (List Char)
  | [] => [[]]
  | c :: cs =>
    if c == sep then [] :: splitChars sep cs
    else
      match splitChars sep cs with
      | [] => [[c]]
      | h :: t => (c :: h) :: t

/-- Go `strings.Split(s, ",")`. -/
def splitComma (s : String) : List String := (splitChars ',' s.data).map String.mk

/-- loadTags of table.go: one tag named "sql" per comma-separated chunk. -/
def Field.loadTags (f : Field) (sqlTags : String) : Field :=
  if sqlTags == "" then f
  else { f with tags := f.tags ++ (splitComma sqlTags).map (fun v => { name := "sql", key := "", value := v }) }

/-- The field loop of `loadTable`: `acc` is `t.fields` so far. -/
def loadFields : List StructField → List Field → List Field
  | [], acc => acc
  | fieldTyp :: rest, acc =>
    let f : Field := { name := fieldTyp.name, typ := fieldTyp.typ, tags := [] }
    let tags := fieldTyp.tag
    if tags == "-" then loadFields rest acc
    else loadFields rest (acc ++ [f.loadTags tags])

/-- loadTable loads the model and returns a Table (table.go, `loadTable`).
`reflect.ValueOf(model).Kind()` is Ptr for `ptr` and `nilPtr`; `Elem()` of a
nil pointer is the invalid Value, whose kind is not Struct. -/
def loadTable (model : GoValue) : Except Error Table :=
  match model with
  | .ptr value =>
    match value with
    | .struct s =>
      .ok { name := tabulizeName s.typ.name, fields := loadFields s.typ.fields [], tags := [] }
    | _ => .error "modelsshould be structs"
  | .nilPtr _ => .error "modelsshould be structs"
  | _ => .error "provide a pointer to a model struct"

/-- LoadFunc of table.go. -/
abbrev LoadFunc := GoValue → Except Error Table

/-! ## sql.go: Values and quote -/

/-- The column name chosen in the loop of `Values`: the field name, replaced by
the value of the first flag named "field_name" when the field has flags. -/
def valuesColName (field : Field) : String :=
  match (field.Flags).1.find? (fun tg => tg.name == "field_name") with
  | some tg => tg.value
  | none => field.name

/-- The loop of `Values` over the table fields `f`, for the struct `value`;
`cols` and `vals` are the slices built so far. `none` is the panic of
`fv.Interface()` on a field that is not exported. -/
def valuesLoop (value : StructValue) :
    List Field → List String → List Value → Option (List String × List Value)
  | [], cols, vals => some (cols, vals)
  | field :: rest, cols, vals =>
    match value.FieldByName field.name with
    | none => valuesLoop value rest cols vals
    | some (sf, fv) =>
      if !sf.exported then none
      else if isZeroField sf.typ fv then valuesLoop value rest cols vals
      else valuesLoop value rest (cols ++ [valuesColName field]) (vals ++ [fv])

/-- Values returns the fields that are present in the table t which have values
set in model v (sql.go, `Values`): the triple `(cols, vals, err)`. `none` is a
panic: `FieldByName` on a Value that is not a struct, or reading a field that
is not exported. -/
def Values (t : Table) (v : GoValue) : Option (List String × List Value × Option Error) :=
  match t.Fields with
  | (_, some err) => some ([], [], some err)
  | (f, none) =>
    let value := match v with
      | .ptr elem => elem
      | .nilPtr _ => GoValue.nil
      | other => other
    match value with
    | .struct s =>
      match valuesLoop s f [] [] with
      | some (cols, vals) => some (cols, vals, none)
      | none => none
    | _ => none

/-- quote adds single quotes to val if val is a string (sql.go, `SQL.quote`).
`none` is the panic of `typ.Kind()` for the nil interface, whose
`reflect.TypeOf` is nil. -/
def quote (val : Value) : Option String :=
  match val with
  | .nil => none
  | .str s => some ("'" ++ s ++ "'")
  | v => some v.sprint

/-! ## sql.go: sessions and clauses -/

/-- An element of a variadic `args ...interface{}` list: `none` is the nil
interface. -/
abbrev Arg := Option Value

/-- An element of the argument list assembled by `BuildQuery`, which is a
`[]interface{}` too: a single value, or a whole `[]interface{}` slice stored
as one element. -/
inductive QueryArg where
  | elem (a : Arg)
  | slice (as : List Arg)
  deriving DecidableEq, Repr

/-- A sql command with the arguments (sql.go, `clause`); a nil `args` is the
empty list (the package stores `args` only when `len(args) > 0`). -/
structure Clause where
  condition : String
  args : List Arg
  deriving DecidableEq, Repr

/-- The `clause` field of `SQL`: one optional clause per kind (a nil pointer is
`none`). The Go field `where` is written `where_`. -/
structure Clauses where
  where_ : Option Clause
  limit : Option Clause
  offset : Option Clause
  order : Option Clause
  count : Option Clause
  dbSelect : Option Clause
  deriving DecidableEq, Repr

/-- The dialect plugins of the package (adopter.go); postgres.go has the only one. -/
inductive Adopter where
  | postgresql
  deriving DecidableEq, Repr

/-- SQL provides methods for interacting with relational databases (sql.go,
`SQL`). `models` is the map from type name to table, as an association list;
`db` stands for the connection handle; a nil `loader` is `none`. The mutex
is not modelled. -/
structure SQL where
  models : List (String × Table)
  adopter : Option Adopter
  loader : Option LoadFunc
  clause : Clauses
  db : Nat
  verbose : Bool
  isDone : Bool

/-- The zero value of the `clause` field. -/
def Clauses.empty : Clauses :=
  { where_ := none, limit := none, offset := none, order := none, count := none, dbSelect := none }

/-- The session built by `newSQL` for a connection handle. -/
def newSQL (dbAdopter : Adopter) (db : Nat) : SQL :=
  { models := [], adopter := some dbAdopter, loader := some loadTable,
    clause := Clauses.empty, db := db, verbose := false, isDone := false }

/-- Go map assignment `m[k] = t`. -/
def mapSet (m : List (String × Table)) (k : String) (t : Table) : List (String × Table) :=
  (k, t) :: m.filter (fun p => p.1 != k)

/-- getModel returns the table registered by name, `none` (nil) if the table
was not yet registered. -/
def SQL.getModel (s : SQL) (name : String) : Option Table :=
  (s.models.find? (fun p => p.1 == name)).map (fun p => p.2)

/-- Name of `reflect.TypeOf(v)`, after `Elem()` when its kind is Ptr, as
`Register` computes it; `none` is the panic of `Kind()` on the nil Type. -/
def registeredName : GoValue → Option String
  | .nil => none
  | .val .nil => none
  | .val v => some v.typeName
  | .struct s => some s.typ.name
  | .ptr (.struct s) => some s.typ.name
  | .ptr (.val v) => some v.typeName
  | .ptr _ => some ""
  | .nilPtr n => some n

/-- The loop of `Register` over the models, `models` being the map so far; it
stops at the first error of the loader. -/
def registerLoop (loader : LoadFunc) :
    List GoValue → List (String × Table) → Option (List (String × Table) × Option Error)
  | [], models => some (models, none)
  | v :: rest, models =>
    match loader v with
    | .error err => some (models, some err)
    | .ok t =>
      match registeredName v with
      | none => none
      | some n => registerLoop loader rest (mapSet models n t)

/-- Register registers models (sql.go, `SQL.Register`): the session after the
call and the error returned. `none` is a panic (nil loader, nil model type). -/
def SQL.Register (s : SQL) (models : List GoValue) : Option (SQL × Option Error) :=
  if models.length > 0 then
    match s.loader with
    | none => none
    | some loader =>
      match registerLoop loader models s.models with
      | none => none
      | some (ms, err) => some ({ s with models := ms }, err)
  else some (s, none)

/-- Copy returns a new copy of s (sql.go, `SQL.Copy`): every field but `db`,
`models` and `adopter` has its zero value. -/
def SQL.Copy (s : SQL) : SQL :=
  { models := s.models, adopter := s.adopter, loader := none,
    clause := Clauses.empty, db := s.db, verbose := false, isDone := false }

/-- CopyQuery returns a copy of s when the composed query has already been
executed, and s itself otherwise. -/
def SQL.CopyQuery (s : SQL) : SQL :=
  if s.isDone then s.Copy else s

/-- The loop of `Where` over `cols`: `k` is the index, `keyVal` the string so
far; `none` is the panic of `vals[k]` out of range or of `quote`. -/
def whereKeyVal (vals : List Value) : List String → Nat → String → Option String
  | [], _, keyVal => some keyVal
  | v :: rest, k, keyVal =>
    match vals[k]? with
    | none => none
    | some x =>
      match quote x with
      | none => none
      | some q => whereKeyVal vals rest (k + 1) (keyVal ++ (" " ++ v ++ "=" ++ q))

/-- Where adds a where query (sql.go, `SQL.Where`): the session it returns
(`dup`, which is s itself unless s was executed). `none` is a panic: the type
assertion `value.(string)` on a pointer to a string, or a panic of `Values`. -/
def SQL.Where (s : SQL) (value : GoValue) (args : List Arg) : Option SQL :=
  let dup := s.CopyQuery
  let refVal := match value with
    | .ptr elem => elem
    | .nilPtr _ => GoValue.nil
    | other => other
  match refVal with
  | .val (.str _) =>
    match value with
    | .val (.str str) =>
      some { dup with clause := { dup.clause with where_ := some { condition := str, args := args } } }
    | _ => none
  | .struct _ =>
    match loadTable value with
    | .error _ => some dup
    | .ok t =>
      match Values t value with
      | none => none
      | some (_, _, some _) => some dup
      | some (cols, vals, none) =>
        match whereKeyVal vals cols 0 "" with
        | none => none
        | some keyVal =>
          some { dup with clause := { dup.clause with where_ := some { condition := keyVal, args := [] } } }
  | _ => some dup

/-- Limit sets up the LIMIT clause (sql.go, `SQL.Limit`). -/
def SQL.Limit (s : SQL) (condition : Int) : SQL :=
  let dup := s.CopyQuery
  let query := " LIMIT " ++ fmtInt condition
  { dup with clause := { dup.clause with limit := some { condition := query, args := [] } } }

/-- Count adds the COUNT statement (sql.go, `SQL.Count`). -/
def SQL.Count (s : SQL) (column : String) : SQL :=
  let dup := s.CopyQuery
  let query := " COUNT (" ++ column ++ ") "
  { dup with clause := { dup.clause with count := some { condition := query, args := [] } } }

/-- Offset adds the OFFSET clause (sql.go, `SQL.Offset`); the format string of
the source is `" LIMIT %d"`. -/
def SQL.Offset (s : SQL) (condition : Int) : SQL :=
  let dup := s.CopyQuery
  let query := " LIMIT " ++ fmtInt condition
  { dup with clause := { dup.clause with offset := some { condition := query, args := [] } } }

/-- The Struct arm of `Select` (used for a struct and for a pointer to one):
the select clause `* FROM <table name>` when the type is registered. -/
def selectModel (s dup : SQL) (typeName : String) : SQL :=
  match s.getModel typeName with
  | none => dup
  | some t =>
    let q := "* FROM " ++ t.Name
    { dup with clause := { dup.clause with dbSelect := some { condition := q, args := [] } } }

/-- Select adds the SELECT clause (sql.go, `SQL.Select`). -/
def SQL.Select (s : SQL) (query : GoValue) (args : List Arg) : SQL :=
  let dup := s.CopyQuery
  match query with
  | .val (.str str) =>
    { dup with clause := { dup.clause with dbSelect := some { condition := str, args := args } } }
  | .struct v => selectModel s dup v.typ.name
  | .ptr (.struct v) => selectModel s dup v.typ.name
  | _ => dup

/-! ## sql.go: BuildQuery, cleanArgs, creare, update -/

/-- Position of the first occurrence of `sub` in a character list, if any. -/
def indexChars (sub : List Char) : List Char → Option Nat
  | [] => if sub.isEmpty then some 0 else none
  | c :: cs =>
    if sub.isPrefixOf (c :: cs) then some 0
    else (indexChars sub cs).map (fun n => n + 1)

/-- Go `strings.Index(s, substr)`: the index of the first instance of substr
in s, or -1 if substr is not present in s. -/
def stringsIndex (s substr : String) : Int :=
  match indexChars substr.data s.data with
  | some n => (n : Int)
  | none => -1

/-- Go `html.EscapeString`, one character at a time. -/
def escapeChar (c : Char) : List Char :=
  if c == '&' then "&amp;".data
  else if c == '\'' then "&#39;".data
  else if c == '<' then "&lt;".data
  else if c == '>' then "&gt;".data
  else if c == '"' then "&#34;".data
  else [c]

/-- Go `html.EscapeString`. -/
def htmlEscape (s : String) : String := ⟨s.data.flatMap escapeChar⟩

/-- The loop of `cleanArgs`, building its local result `rst`. -/
def cleanArgsRst : List QueryArg → List QueryArg → List QueryArg
  | [], rst => rst
  | v :: rest, rst =>
    match v with
    | .elem none => cleanArgsRst rest rst
    | .elem (some (.str typ)) =>
      cleanArgsRst rest ((rst ++ [.elem (some (.str (htmlEscape typ)))]) ++ [v])
    | _ => cleanArgsRst rest (rst ++ [v])

/-- cleanArgs of sql.go: when `len(args) > 0` the loop fills `rst` and the
function executes `return args`; otherwise it returns the nil `rst`. -/
def cleanArgs (args : List QueryArg) : List QueryArg :=
  if args.length > 0 then
    let _rst := cleanArgsRst args []
    args
  else []

/-- The select part of `BuildQuery`: buffer and argument list after it. -/
def buildSelect (c : Clauses) : String × List QueryArg :=
  match c.dbSelect with
  | none => ("", [])
  | some dbSelect =>
    let buf := "" ++ "SELECT "
    let selectCond := dbSelect.condition
    let (buf, selectCond) :=
      match c.count with
      | none => (buf, selectCond)
      | some count =>
        let buf := buf ++ count.condition
        let n := stringsIndex selectCond "FROM"
        (buf, if n > 0 then sliceFrom selectCond n.toNat else selectCond)
    let buf := buf ++ selectCond
    (buf, if dbSelect.args != [] then [QueryArg.slice dbSelect.args] else [])

/-- The where part of `BuildQuery`. -/
def buildWhere (c : Clauses) (st : String × List QueryArg) : String × List QueryArg :=
  match c.where_ with
  | none => st
  | some w =>
    let buf := st.1 ++ (" WHERE" ++ w.condition)
    match c.dbSelect with
    | some dbSelect =>
      (buf, if dbSelect.args != [] then st.2 ++ [QueryArg.slice w.args] else st.2)
    | none => (buf, st.2)

/-- The offset part of `BuildQuery`; `none` is the nil pointer dereference of
`s.clause.dbSelect.args` when there is no select clause. -/
def buildOffset (c : Clauses) (st : String × List QueryArg) : Option (String × List QueryArg) :=
  match c.offset with
  | none => some st
  | some offset =>
    let buf := st.1 ++ ("OFFSET " ++ offset.condition)
    match c.dbSelect with
    | none => none
    | some dbSelect =>
      some (buf, if dbSelect.args != [] then st.2 ++ [QueryArg.slice offset.args] else st.2)

/-- The limit part of `BuildQuery`; `none` is the nil pointer dereference of
`s.clause.dbSelect.args` when there is no select clause. -/
def buildLimit (c : Clauses) (st : String × List QueryArg) : Option (String × List QueryArg) :=
  match c.limit with
  | none => some st
  | some limit =>
    let buf := st.1 ++ ("LIMIT" ++ limit.condition)
    match c.dbSelect with
    | none => none
    | some dbSelect =>
      some (buf, if dbSelect.args != [] then st.2 ++ [QueryArg.slice limit.args] else st.2)

/-- BuildQuery returns the sql query that will be executed (sql.go,
`SQL.BuildQuery`): the triple `(query, args, err)`, or `none` when the call
panics. Printing the query when `verbose` is set is not modelled. -/
def SQL.BuildQuery (s : SQL) : Option (String × List QueryArg × Option Error) :=
  match buildOffset s.clause (buildWhere s.clause (buildSelect s.clause)) with
  | none => none
  | some st =>
    match buildLimit s.clause st with
    | none => none
    | some (buf, args) => some (buf ++ ";", cleanArgs args, none)

/-- The first loop of `creare`, writing the column names; `k` is the index. -/
def writeCols : List String → Nat → String → String
  | [], _, buf => buf
  | v :: rest, k, buf =>
    if k == 0 then writeCols rest (k + 1) (buf ++ v)
    else writeCols rest (k + 1) (buf ++ (", " ++ v))

/-- The second loop of `creare`, writing the quoted values; `k` is the index
and `none` the panic of `quote`. -/
def writeVals : List Value → Nat → String → Option String
  | [], _, buf => some buf
  | v :: rest, k, buf =>
    match quote v with
    | none => none
    | some q =>
      if k == 0 then writeVals rest (k + 1) (buf ++ q)
      else writeVals rest (k + 1) (buf ++ (", " ++ q))

/-- The unexported `creare` of sql.go, which builds the INSERT statement:
`.error err` is the return `("", err)`, `none` a panic (nil loader, or a panic
of `Values` or of `quote`). -/
def SQL.creare (s : SQL) (model : GoValue) : Option (Except Error String) :=
  match s.loader with
  | none => none
  | some loader =>
    match loader model with
    | .error err => some (.error err)
    | .ok t =>
      match Values t model with
      | none => none
      | some (_, _, some err) => some (.error err)
      | some (cols, vals, none) =>
        let buf := "" ++ ("INSERT INTO " ++ t.Name)
        let buf := buf ++ " ("
        let buf := writeCols cols 0 buf
        let buf := buf ++ ")"
        let buf := buf ++ " VALUES ("
        match writeVals vals 0 buf with
        | none => none
        | some buf =>
          let buf := buf ++ ");"
          some (.ok buf)

/-- The loop of `update` over `cols`: `k` is the index, `wh` and `up` the
variables `where` and `up`; `none` is the panic of `vals[k]` out of range or
of `quote`. -/
def updateLoop (vals : List Value) : List String → Nat → String → String → Option (String × String)
  | [], _, wh, up => some (wh, up)
  | v :: rest, k, wh, up =>
    match vals[k]? with
    | none => none
    | some x =>
      match quote x with
      | none => none
      | some q =>
        if toLower v == "id" then updateLoop vals rest (k + 1) (" " ++ v ++ "=" ++ q) up
        else if up == "" then updateLoop vals rest (k + 1) wh (v ++ " =" ++ q)
        else updateLoop vals rest (k + 1) wh (up ++ ("," ++ v ++ " =" ++ q))

/-- The unexported `update` of sql.go, which builds the UPDATE statement:
`.error err` is the return `("", err)`, `none` a panic. -/
def SQL.update (s : SQL) (model : GoValue) : Option (Except Error String) :=
  match s.loader with
  | none => none
  | some loader =>
    match loader model with
    | .error err => some (.error err)
    | .ok t =>
      match Values t model with
      | none => none
      | some (_, _, some err) => some (.error err)
      | some (cols, vals, none) =>
        match updateLoop vals cols 0 "" "" with
        | none => none
        | some (wh, up) => some (.ok ("UPDATE " ++ t.Name ++ " SET " ++ up ++ " WHERE " ++ wh))

/-- Go `unicode.IsSpace` on ASCII: tab, line feed, vertical tab, form feed,
carriage return and space. -/
def isSpace (c : Char) : Bool :=
  c == ' ' || c == '\t' || c == '\n' || c == '\r' || c.toNat == 11 || c.toNat == 12

/-- Go `strings.TrimSpace`, which the tests apply to a rendered query. -/
def trimSpace (s : String) : String :=
  ⟨((s.data.dropWhile isSpace).reverse.dropWhile isSpace).reverse⟩

/-! ## sql.go: Bind -/

/-- What `Bind` asks of database/sql and the driver, which are outside the
package: `QueryRow(query, args...)` followed by `row.Scan(dest...)`.
`scanFields` is the scan of struct mode, whose targets are new values of the
given field types: the error of Scan, or the values scanned, one per target.
`scanTargets` is the scan of scalar mode, whose targets are the destination
and the extra arguments themselves: the targets after the scan and the error
of Scan. -/
structure Database where
  scanFields : String → List QueryArg → List GoType → Except Error (List Value)
  scanTargets : String → List QueryArg → List GoValue → List GoValue × Option Error

/-- The state a call of `Bind` leaves: the session, the destination, the extra
targets, the error returned and the queries sent to the database. -/
structure BindResult where
  session : SQL
  value : GoValue
  args : List GoValue
  err : Option Error
  queries : List (String × List QueryArg)

/-- `Type().FieldByName(name)` followed by `FieldByName(sField.Name)` on a
struct value: the position and declaration of the first field of that name. -/
def fieldIndex (fields : List StructField) (name : String) : Option (Nat × StructField) :=
  (fields.enum).find? (fun p => p.2.name == name)

/-- The last loop of struct mode in `Bind`: the value scanned for each table
field is set on the struct field of the same name. `none` is the panic of
`Set` on a field that is not exported or not of the type scanned. -/
def bindFields : StructValue → List Field → List Value → Option StructValue
  | actual, field :: rest, v :: vs =>
    match fieldIndex actual.typ.fields field.name with
    | none => bindFields actual rest vs
    | some (i, sField) =>
      if !sField.exported then none
      else if sField.typ != field.typ then none
      else bindFields { actual with vals := actual.vals.set i v } rest vs
  | actual, _, _ => some actual

/-- Bind executes the query and scans results into value (sql.go, `SQL.Bind`),
for the database `conn`. `none` is a panic (nil loader, panic of `BuildQuery`
or of `Set`). The deferred `s.isDone = true` is registered after the pointer
test, so every return after that test leaves the session executed. -/
def SQL.Bind (s : SQL) (conn : Database) (value : GoValue) (args : List GoValue) :
    Option BindResult :=
  match value with
  | .ptr actualVal =>
    let done : SQL := { s with isDone := true }
    match actualVal with
    | .struct actual =>
      match s.loader with
      | none => none
      | some loader =>
        match loader value with
        | .error err =>
          some { session := done, value := value, args := args, err := some err, queries := [] }
        | .ok t =>
          let fields := (t.Fields).1
          let scanArgs := fields.map (fun v => v.typ)
          match s.BuildQuery with
          | none => none
          | some (query, qArgs, _) =>
            match conn.scanFields query qArgs scanArgs with
            | .error err =>
              some { session := done, value := value, args := args, err := some err,
                     queries := [(query, qArgs)] }
            | .ok scanned =>
              match bindFields actual fields scanned with
              | none => none
              | some written =>
                some { session := done, value := .ptr (.struct written), args := args, err := none,
                       queries := [(query, qArgs)] }
    | _ =>
      match s.BuildQuery with
      | none => none
      | some (query, qArgs, _) =>
        let scanned := conn.scanTargets query qArgs (value :: args)
        some { session := done, value := scanned.1.headD value, args := scanned.1.tail,
               err := scanned.2, queries := [(query, qArgs)] }
  | .nilPtr _ =>
    let done : SQL := { s with isDone := true }
    match s.BuildQuery with
    | none => none
    | some (query, qArgs, _) =>
      let scanned := conn.scanTargets query qArgs (value :: args)
      some { session := done, value := scanned.1.headD value, args := scanned.1.tail,
             err := scanned.2, queries := [(query, qArgs)] }
  | _ =>
    some { session := s, value := value, args := args, err := some "non pointer argument",
           queries := [] }

/-! ## postgres.go -/

/-- Go `reflect.Kind.String()`. -/
def kindString : Kind → String
  | .Invalid => "invalid" | .Bool => "bool" | .Int => "int" | .Int8 => "int8"
  | .Int16 => "int16" | .Int32 => "int32" | .Int64 => "int64"
  | .Uint => "uint" | .Uint8 => "uint8" | .Uint16 => "uint16" | .Uint32 => "uint32"
  | .Uint64 => "uint64" | .Uintptr => "uintptr"
  | .Float32 => "float32" | .Float64 => "float64"
  | .Complex64 => "complex64" | .Complex128 => "complex128"
  | .Array => "array" | .Chan => "chan" | .Func => "func" | .Interface => "interface"
  | .Map => "map" | .Ptr => "ptr" | .Slice => "slice" | .String => "string"
  | .Struct => "struct" | .UnsafePointer => "unsafe.Pointer"

/-- The type `time.Time` (`reflect.TypeOf(time.Time{})`). -/
def timeType : GoType := ⟨Kind.Struct, "time.Time"⟩

/-- The variable `details` of `postgresql.Field` after its switch on the kind
of the field type; a type is assignable to `time.Time` when it is that type. -/
def postgresql.details (f : Orange.Field) : String :=
  match f.typ.kind with
  | .String => "text"
  | .Bool => "boolean"
  | .Int => if toLower f.name == "id" then "serial" else "integer"
  | .Int64 => if toLower f.name == "id" then "bigserial" else "bigint"
  | .Struct => if f.typ == timeType then "timestamp with time zone" else ""
  | _ => ""

/-- Field returns sql representation of field f (postgres.go, `postgresql.Field`). -/
def postgresql.Field (f : Orange.Field) : Except Error String :=
  let fName := f.ColumnName
  let buf := "" ++ (fName ++ " ")
  let details := postgresql.details f
  if details == "" then .error (" unknown type for field " ++ kindString f.typ.kind)
  else .ok (buf ++ details)

/-- The loop of `postgresql.Create` over the fields: `k` is the index, `buf`
the buffer; `none` is the statement `return "", nil` taken when `Field` fails. -/
def postgresql.createLoop (size : Nat) : List Orange.Field → Nat → String → Option String
  | [], _, buf => some buf
  | v :: rest, k, buf =>
    match postgresql.Field v with
    | .error _ => none
    | .ok column =>
      if k == size - 1 then some (buf ++ column)
      else postgresql.createLoop size rest (k + 1) (buf ++ (column ++ ","))

/-- Create returns sql query for creating table t if it does not exist
(postgres.go, `postgresql.Create`): the pair `(query, err)`. -/
def postgresql.Create (t : Table) : String × Option Error :=
  let buf := "" ++ ("CREATE TABLE IF NOT EXISTS " ++ t.Name ++ " (")
  match t.Fields with
  | (_, some err) => ("", some err)
  | (fields, none) =>
    let size := fields.length
    match postgresql.createLoop size fields 0 buf with
    | none => ("", none)
    | some buf => (buf ++ ");", none)

/-- Drop returns sql query for dropping table t (postgres.go, `postgresql.Drop`). -/
def postgresql.Drop (t : Table) : String × Option Error :=
  let query := "DROP TABLE IF EXISTS " ++ t.Name
  (query, none)

/-! ## table.go: tabulizeName on the bytes of its input, with checked slices -/

/-- A Go string as the sequence of its bytes. -/
abbrev Bytes := List Nat

/-- Go `utf8.EncodeRune`: the UTF-8 encoding of a code point. -/
def encodeRune (r : Nat) : Bytes :=
  if r < 128 then [r]
  else if r < 2048 then [192 + r / 64, 128 + r % 64]
  else if r < 65536 then [224 + r / 4096, 128 + (r / 64) % 64, 128 + r % 64]
  else [240 + r / 262144, 128 + (r / 4096) % 64, 128 + (r / 64) % 64, 128 + r % 64]

/-- The bytes of a Go string literal (UTF-8). -/
def bytesOf (s : String) : Bytes := s.data.flatMap (fun c => encodeRune c.toNat)

/-- Go `utf8.RuneError`, U+FFFD. -/
def RuneError : Nat := 65533

/-- Go `utf8.DecodeRuneInString`, which `range` over a string uses: the rune at
the head of the bytes and its width. A head byte that does not start a valid
encoding gives `RuneError` with width 1; the empty string gives width 0. -/
def decodeRune : Bytes → Nat × Nat
  | [] => (RuneError, 0)
  | s0 :: rest =>
    if s0 < 128 then (s0, 1)
    else if s0 < 194 ∨ 244 < s0 then (RuneError, 1)
    else
      let sz := if s0 < 224 then 2 else if s0 < 240 then 3 else 4
      let lo := if s0 = 224 then 160 else if s0 = 240 then 144 else 128
      let hi := if s0 = 237 then 159 else if s0 = 244 then 143 else 191
      if rest.length + 1 < sz then (RuneError, 1)
      else
        match rest with
        | [] => (RuneError, 1)
        | s1 :: rest1 =>
          if s1 < lo ∨ hi < s1 then (RuneError, 1)
          else if sz ≤ 2 then ((s0 % 32) * 64 + s1 % 64, 2)
          else
            match rest1 with
            | [] => (RuneError, 1)
            | s2 :: rest2 =>
              if s2 < 128 ∨ 191 < s2 then (RuneError, 1)
              else if sz ≤ 3 then ((s0 % 16) * 4096 + (s1 % 64) * 64 + s2 % 64, 3)
              else
                match rest2 with
                | [] => (RuneError, 1)
                | s3 :: _ =>
                  if s3 < 128 ∨ 191 < s3 then (RuneError, 1)
                  else ((s0 % 8) * 262144 + (s1 % 64) * 4096 + (s2 % 64) * 64 + s3 % 64, 4)

/-- The iterations of `for i, ch := range s` over a string: the byte index and
the rune of each code point, in order. `skip` counts the bytes that still
belong to the code point decoded last and `i` is the index of the head byte. -/
def rangeFrom : Nat → Nat → Bytes → List (Nat × Nat)
  | _, _, [] => []
  | 0, i, b :: rest => (i, (decodeRune (b :: rest)).1) :: rangeFrom ((decodeRune (b :: rest)).2 - 1) (i + 1) rest
  | skip + 1, i, _ :: rest => rangeFrom skip (i + 1) rest

/-- What `tabulizeName` asks of the packages unicode and strings, which hold
the Unicode tables: `unicode.IsUpper` and `unicode.IsLower` of a rune, and
`strings.ToLower` of a string. -/
structure CaseTables where
  IsUpper : Nat → Bool
  IsLower : Nat → Bool
  ToLower : Bytes → Bytes

/-- How a run of `tabulizeName` ends: with a result, with a run-time panic
(index or slice out of range), or because the iterations allowed to its `for`
loop were used up. -/
inductive Outcome where
  | done (out : Bytes)
  | panic
  | timeout
  deriving DecidableEq, Repr

/-- Go slice expression `s[lo:hi]` on a string, with its run-time check
`0 <= lo <= hi <= len(s)`; `none` is the panic. -/
def sliceChecked (s : Bytes) (lo hi : Nat) : Option Bytes :=
  if lo ≤ hi ∧ hi ≤ s.length then some ((s.take hi).drop lo) else none

/-- Go slice expression `s[lo:]` with its run-time check. -/
def sliceFromChecked (s : Bytes) (lo : Nat) : Option Bytes :=
  if lo ≤ s.length then some (s.drop lo) else none

/-- Go slice expression `s[:hi]` with its run-time check. -/
def sliceToChecked (s : Bytes) (hi : Nat) : Option Bytes :=
  if hi ≤ s.length then some (s.take hi) else none

/-- writeSnake writes n in b with a snake case (table.go, `writeSnake`), on
bytes; 95 is the underscore. -/
def Bytewise.writeSnake (u : CaseTables) (b : Bytes) (n : Bytes) : Bytes :=
  if b.length == 0 then b ++ u.ToLower n
  else b ++ [95] ++ u.ToLower n

/-- The first loop of `tabulizeName`, over the iterations of the `range`: the
values of `isFirstLower` and `capIndex` after it. -/
def Bytewise.firstLoop (u : CaseTables) : List (Nat × Nat) → Bool → List Nat → Bool × List Nat
  | [], isFirstLower, capIndex => (isFirstLower, capIndex)
  | (i, ch) :: rest, isFirstLower, capIndex =>
    Bytewise.firstLoop u rest (if i == 0 then u.IsLower ch else isFirstLower)
      (if u.IsUpper ch then capIndex ++ [i] else capIndex)

/-- The `for`/`switch` of `tabulizeName`, one iteration per unit of the first
argument (the iterations allowed), with the loop variables `i`, `left`,
`piling` and the buffer; `capIndex` is indexed as in the source and every
slice is checked. -/
def Bytewise.run (u : CaseTables) (name : Bytes) (isFirstLower : Bool) (capIndex : List Nat) :
    Nat → Nat → Nat → Bool → Bytes → Outcome
  | 0, _, _, _, _ => .timeout
  | steps + 1, i, left, piling, buf =>
    let lenCap := capIndex.length
    if lenCap == 1 then
      match capIndex[0]? with
      | none => .panic
      | some c =>
        if c == 0 then .done (Bytewise.writeSnake u buf name)
        else
          match sliceChecked name left c, sliceFromChecked name c with
          | some a, some b => .done (Bytewise.writeSnake u (Bytewise.writeSnake u buf a) b)
          | _, _ => .panic
    else if i == lenCap - 1 then
      match capIndex[i]? with
      | none => .panic
      | some c =>
        if piling then
          match sliceChecked name left c, sliceFromChecked name c with
          | some a, some b => .done (Bytewise.writeSnake u (Bytewise.writeSnake u buf a) b)
          | _, _ => .panic
        else
          match sliceFromChecked name c with
          | some b => .done (Bytewise.writeSnake u buf b)
          | none => .panic
    else
      match capIndex[i]?, capIndex[i + 1]? with
      | some c, some next =>
        match (if i == 0 && isFirstLower then (sliceToChecked name c).map (Bytewise.writeSnake u buf)
               else some buf) with
        | none => .panic
        | some buf =>
          if piling && next - c != 1 then
            match sliceChecked name left c, sliceChecked name c next with
            | some a, some b =>
              Bytewise.run u name isFirstLower capIndex steps (i + 1) next false
                (Bytewise.writeSnake u (Bytewise.writeSnake u buf a) b)
            | _, _ => .panic
          else if next - c == 1 then
            Bytewise.run u name isFirstLower capIndex steps (i + 1) (if !piling then c else left) true buf
          else
            match sliceChecked name left next with
            | some a =>
              Bytewise.run u name isFirstLower capIndex steps (i + 1) next piling
                (Bytewise.writeSnake u buf a)
            | none => .panic
      | _, _ => .panic

/-- tabulizeName changes name to a good database name (table.go,
`tabulizeName`), on the bytes of the name, for the Unicode tables `u` and with
at most `steps` iterations of its `for` loop: indexing and slicing are
checked, the offsets in `capIndex` are byte offsets. -/
def Bytewise.tabulizeName (u : CaseTables) (steps : Nat) (name : Bytes) : Outcome :=
  if name == bytesOf "" then .done (bytesOf "")
  else if u.ToLower name == bytesOf "id" then .done (bytesOf "id")
  else
    let loop := Bytewise.firstLoop u (rangeFrom 0 0 name) false []
    let lenCap := loop.2.length
    if lenCap == 0 then .done name
    else Bytewise.run u name loop.1 loop.2 steps 0 0 false []

/-- The case tables of Unicode for Basic Latin and Latin-1 Supplement (code
points below 256): outside them no rune counts as a letter here. -/
def latinIsUpper (r : Nat) : Bool :=
  (65 ≤ r && r ≤ 90) || (192 ≤ r && r ≤ 222 && r != 215)

/-- The lowercase letters below code point 256. -/
def latinIsLower (r : Nat) : Bool :=
  (97 ≤ r && r ≤ 122) || r == 170 || r == 181 || r == 186 || (223 ≤ r && r ≤ 255 && r != 247)

/-- Go `strings.ToLower` on a string whose letters are below code point 256:
an ASCII capital is one byte, a Latin-1 capital the byte 195 and one more. -/
def latinToLower : Bytes → Bytes
  | [] => []
  | [a] => [if 65 ≤ a && a ≤ 90 then a + 32 else a]
  | a :: b :: rest =>
    if a == 195 && 128 ≤ b && b ≤ 158 && b != 151 then a :: (b + 32) :: latinToLower rest
    else (if 65 ≤ a && a ≤ 90 then a + 32 else a) :: latinToLower (b :: rest)

/-- The functions of unicode and strings on names whose letters are below code
point 256. -/
def latinTables : CaseTables :=
  { IsUpper := latinIsUpper, IsLower := latinIsLower, ToLower := latinToLower }

/-! ## The record type of the tests -/

/-- The type `golangster` of sql_test.go: `ID int64` and `Name string`. -/
def golangsterType : StructType :=
  { name := "golangster",
    fields := [ { name := "ID", typ := ⟨Kind.Int64, "int64"⟩, tag := "" },
                { name := "Name", typ := ⟨Kind.String, "string"⟩, tag := "" } ] }

/-- The value `golangster{ID: id, Name: name}`. -/
def golangster (id : Int) (name : String) : StructValue :=
  { typ := golangsterType, vals := [Value.int64 id, Value.str name] }

/-- The session of the tests: a new session on which `&golangster{}` was registered. -/
def testDB : SQL :=
  match (newSQL Adopter.postgresql 0).Register [GoValue.ptr (GoValue.struct (golangster 0 ""))] with
  | some (s, _) => s
  | none => newSQL Adopter.postgresql 0

/-- The type `simpleModel` of table_test.go. -/
def simpleModelType : StructType :=
  { name := "simpleModel",
    fields := [ { name := "ID", typ := ⟨Kind.Int64, "int64"⟩, tag := "id" },
                { name := "BOdy", typ := ⟨Kind.String, "string"⟩, tag := "" },
                { name := "CreatedAt", typ := ⟨Kind.Struct, "time.Time"⟩, tag := "" },
                { name := "UpdatedAT", typ := ⟨Kind.Struct, "time.Time"⟩, tag := "" } ] }

/-- The zero value `simpleModel{}`. -/
def simpleModel : StructValue :=
  { typ := simpleModelType,
    vals := [Value.int64 0, Value.str "", Value.other "Time" true "0001-01-01 00:00:00 +0000 UTC",
             Value.other "Time" true "0001-01-01 00:00:00 +0000 UTC"] }

/-! ## Sessions behind pointers -/

/-- The sessions in memory: a `*SQL` pointer is a position in the list. -/
abbrev Store := List SQL

/-- A chain call of sql.go on the session at address `p`. Every chain method
starts with `dup := s.CopyQuery()`, works on `dup` and returns it. `method`
gives the state of `dup` after the call from the state of the receiver (`none`
when the call panics); `dup` is a new object when the receiver was executed
(`CopyQuery` returns `s.Copy()`) and the receiver itself, changed in place,
otherwise (`CopyQuery` returns `s`). The result is the store after the call
and the pointer the call returns. -/
def chainCall (h : Store) (p : Nat) (method : SQL → Option SQL) : Option (Store × Nat) :=
  match h[p]? with
  | none => none
  | some s =>
    match method s with
    | none => none
    | some dup => if s.isDone then some (h ++ [dup], h.length) else some (h.set p dup, p)

/-- The call `s.Where(value, args...)` on the session at address `p`. -/
def WhereAt (h : Store) (p : Nat) (value : GoValue) (args : List Arg) : Option (Store × Nat) :=
  chainCall h p (fun s => s.Where value args)

/-- The call `s.Limit(condition)` on the session at address `p`. -/
def LimitAt (h : Store) (p : Nat) (condition : Int) : Option (Store × Nat) :=
  chainCall h p (fun s => some (s.Limit condition))

/-- The call `s.BuildQuery()` on the session at address `p`. -/
def BuildQueryAt (h : Store) (p : Nat) : Option (String × List QueryArg × Option Error) :=
  match h[p]? with
  | none => none
  | some s => s.BuildQuery

/-! ## Further test inputs -/

/-- A struct type with a field `Name string` annotated `sql:"full_name"`. -/
def taggedType : StructType :=
  { name := "person",
    fields := [ { name := "Name", typ := ⟨Kind.String, "string"⟩, tag := "full_name" } ] }

/-- The zero value of the struct type `taggedType`. -/
def tagged : StructValue := { typ := taggedType, vals := [Value.str ""] }

/-- The session of the tests with a where clause, after a query was executed on
it (`Bind` sets `isDone`). -/
def executedDB : SQL :=
  { testDB with
    clause := { Clauses.empty with where_ := some { condition := " id=1", args := [] } },
    isDone := true }

/-- The type `postgresTest` of postgres_test.go. -/
def postgresTestType : StructType :=
  { name := "postgresTest",
    fields := [ { name := "ID", typ := ⟨Kind.Int, "int"⟩, tag := "" },
                { name := "Body", typ := ⟨Kind.String, "string"⟩, tag := "" },
                { name := "CreatedAt", typ := ⟨Kind.Struct, "time.Time"⟩, tag := "" },
                { name := "UpdatedAt", typ := ⟨Kind.Struct, "time.Time"⟩, tag := "" } ] }

/-- The zero value `postgresTest{}`. -/
def postgresTest : StructValue :=
  { typ := postgresTestType,
    vals := [Value.int 0, Value.str "", Value.other "Time" true "0001-01-01 00:00:00 +0000 UTC",
             Value.other "Time" true "0001-01-01 00:00:00 +0000 UTC"] }

/-- A struct type with a field of a type without PostgreSQL mapping:
`ID int64` and `Price float64`. -/
def productType : StructType :=
  { name := "product",
    fields := [ { name := "ID", typ := ⟨Kind.Int64, "int64"⟩, tag := "" },
                { name := "Price", typ := ⟨Kind.Float64, "float64"⟩, tag := "" } ] }

/-- The zero value of the struct type `productType`. -/
def product : StructValue :=
  { typ := productType, vals := [Value.int64 0, Value.other "float64" true "0"] }

/-- A database whose scans fail: no row is returned. -/
def noRows : Database :=
  { scanFields := fun _ _ _ => .error "sql: no rows in result set",
    scanTargets := fun _ _ targets => (targets, some "sql: no rows in result set") }

/-- A record type with a field that is not exported:
`type user struct { ID int64; name string }`. -/
def userType : StructType :=
  { name := "user",
    fields := [{ name := "ID", typ := ⟨Kind.Int64, "int64"⟩, tag := "" },
               { name := "name", typ := ⟨Kind.String, "string"⟩, tag := "" }] }

/-- The value `user{ID: id, name: name}`. -/
def user (id : Int) (name : String) : StructValue :=
  { typ := userType, vals := [Value.int64 id, Value.str name] }

/-- A record type with two exported fields and one that is not exported:
`type member struct { ID int64; Name string; secret string }`. -/
def memberType : StructType :=
  { name := "member",
    fields := [{ name := "ID", typ := ⟨Kind.Int64, "int64"⟩, tag := "" },
               { name := "Name", typ := ⟨Kind.String, "string"⟩, tag := "" },
               { name := "secret", typ := ⟨Kind.String, "string"⟩, tag := "" }] }

/-- The value `member{ID: id, Name: name, secret: secret}`. -/
def member (id : Int) (name secret : String) : StructValue :=
  { typ := memberType, vals := [Value.int64 id, Value.str name, Value.str secret] }

/-- A record type with fields of interface type:
`type note struct { X interface{}; Name string; Y interface{} }`. -/
def noteType : StructType :=
  { name := "note",
    fields := [{ name := "X", typ := ⟨Kind.Interface, ""⟩, tag := "" },
               { name := "Name", typ := ⟨Kind.String, "string"⟩, tag := "" },
               { name := "Y", typ := ⟨Kind.Interface, ""⟩, tag := "" }] }

/-- The value `note{X: x, Name: name, Y: y}`; `Value.nil` is an interface
field left unset. -/
def note (x : Value) (name : String) (y : Value) : StructValue :=
  { typ := noteType, vals := [x, Value.str name, y] }

/-! ## Vocabulary of the statements -/

/-- The declared fields of a struct type that are mapped to its table: those
whose sql annotation is not exactly "-". -/
def tableFields (t : StructType) : List StructField :=
  t.fields.filter (fun f => f.tag != "-")

/-- The mapped fields of a record whose value differs from the zero value of
the field's type, each with that value, in declaration order. -/
def setFields (r : StructValue) : List (StructField × Value) :=
  (r.typ.fields.zip r.vals).filter (fun p => p.1.tag != "-" && !isZeroField p.1.typ p.2)

/-- A record: a struct value that holds one value per declared field, whose
field names are distinct and whose mapped fields are exported, as Go requires
of a struct read through reflection. -/
def IsRecord (r : StructValue) : Prop :=
  r.vals.length = r.typ.fields.length ∧ (r.typ.fields.map (fun f => f.name)).Nodup ∧
    ∀ f ∈ r.typ.fields, f.tag ≠ "-" → f.exported = true

instance (r : StructValue) : Decidable (IsRecord r) := by
  unfold IsRecord; infer_instance

/-- Go `strings.Join(elems, sep)`. -/
def joinWith (sep : String) : List String → String
  | [] => ""
  | [a] => a
  | a :: b :: rest => a ++ sep ++ joinWith sep (b :: rest)

/-- No character of the string is an uppercase letter. -/
def NoUpper (s : String) : Prop := ∀ c ∈ s.data, c.isUpper = false

/-- The `field` that `loadTable` builds for a declared field. -/
def loadField (ft : StructField) : Field :=
  ({ name := ft.name, typ := ft.typ, tags := [] } : Field).loadTags ft.tag

/-- The text `quote` returns for a value (empty where `quote` panics). -/
def quoted (v : Value) : String := (quote v).getD ""

/-- The string without its underscores. -/
def dropUnderscores (s : String) : String := ⟨s.data.filter (fun c => c != '_')⟩

/-- Number of positions of a character list at which `sub` occurs. -/
def occurrencesChars (sub : List Char) : List Char → Nat
  | [] => 0
  | c :: cs => (if sub.isPrefixOf (c :: cs) then 1 else 0) + occurrencesChars sub cs

/-- Number of occurrences of the keyword `sub` in `s` (Go `strings.Count` for a
keyword that cannot overlap itself). -/
def occurrences (s sub : String) : Nat := occurrencesChars sub.data s.data

/-- The session `d` shares the registry, the adopter and the connection of `s`. -/
def SharesWith (d s : SQL) : Prop :=
  d.models = s.models ∧ d.adopter = s.adopter ∧ d.db = s.db

/-- The kind of the value is Ptr (`reflect.ValueOf(value).Kind() == reflect.Ptr`). -/
def GoValue.isPtr : GoValue → Bool
  | .ptr _ => true
  | .nilPtr _ => true
  | _ => false

/-- The column definition `postgresql.Field` writes for a field with a
PostgreSQL mapping. -/
def columnDef (f : Field) : String := f.ColumnName ++ " " ++ postgresql.details f

/-- One term of the where condition `Where` builds from a record:
` <column>=<quoted value>`. -/
def whereTerm (p : StructField × Value) : String := " " ++ p.1.name ++ "=" ++ quoted p.2

/-! ## Properties of tabulizeName -/

theorem toLower_char_not_upper (c : Char) : (Char.toLower c).isUpper = false := by
  unfold Char.toLower
  by_cases h : c.toNat ≥ 65 ∧ c.toNat ≤ 90
  · simp only [h, and_self, if_true]
    obtain ⟨h1, h2⟩ := h
    generalize c.toNat = n at h1 h2
    interval_cases n <;> decide
  · simp only [h, if_false]
    simp only [Char.isUpper, Char.toNat, ge_iff_le, UInt32.le_def] at h ⊢
    simp only [Bool.and_eq_false_iff, decide_eq_false_iff_not]
    by_contra hc
    push_neg at hc
    exact h ⟨by simpa using hc.1, by simpa using hc.2⟩

theorem toLower_noUpper (n : String) : NoUpper (toLower n) := by
  intro c hc
  simp only [toLower, List.mem_map] at hc
  obtain ⟨d, _, rfl⟩ := hc
  exact toLower_char_not_upper d

theorem noUpper_append {a b : String} (ha : NoUpper a) (hb : NoUpper b) : NoUpper (a ++ b) := by
  intro c hc
  rw [String.data_append, List.mem_append] at hc
  rcases hc with hc | hc
  · exact ha c hc
  · exact hb c hc

theorem writeSnake_noUpper {b : String} (n : String) (hb : NoUpper b) :
    NoUpper (writeSnake b n) := by
  unfold writeSnake
  split
  · exact noUpper_append hb (toLower_noUpper n)
  · exact noUpper_append (noUpper_append hb (by intro c hc; simp at hc; subst hc; decide))
      (toLower_noUpper n)

theorem tabulizeLoop_noUpper (name : String) (fl : Bool) (caps : List Nat) :
    ∀ (i left : Nat) (piling : Bool) (buf : String), NoUpper buf →
      NoUpper (tabulizeLoop name fl caps i left piling buf) := by
  induction caps with
  | nil => intro i left piling buf hb; simpa [tabulizeLoop] using hb
  | cons c rest ih =>
    intro i left piling buf hb
    cases rest with
    | nil =>
      simp only [tabulizeLoop]
      apply writeSnake_noUpper
      split
      · exact writeSnake_noUpper _ hb
      · exact hb
    | cons next rest =>
      simp only [tabulizeLoop]
      have hb2 : NoUpper (if (i == 0 && fl) = true then writeSnake buf (sliceTo name c) else buf) := by
        split
        · exact writeSnake_noUpper _ hb
        · exact hb
      split
      · exact ih _ _ _ _ (writeSnake_noUpper _ (writeSnake_noUpper _ hb2))
      · split
        · exact ih _ _ _ _ hb2
        · exact ih _ _ _ _ (writeSnake_noUpper _ hb2)

theorem capIndexFrom_eq_nil {l : List Char} {i : Nat} (h : capIndexFrom i l = []) :
    ∀ c ∈ l, c.isUpper = false := by
  induction l generalizing i with
  | nil => intro c hc; simp at hc
  | cons a l ih =>
    intro c hc
    simp only [capIndexFrom] at h
    by_cases ha : a.isUpper = true
    · simp [ha] at h
    · simp only [ha] at h
      rcases List.mem_cons.1 hc with rfl | hc
      · simpa using ha
      · exact ih h c hc

theorem capIndexFrom_of_noUpper {l : List Char} (i : Nat) (h : ∀ c ∈ l, c.isUpper = false) :
    capIndexFrom i l = [] := by
  induction l generalizing i with
  | nil => rfl
  | cons a l ih =>
    simp only [capIndexFrom, h a (List.mem_cons_self _ _)]
    exact ih (i + 1) (fun c hc => h c (List.mem_cons_of_mem _ hc))

theorem tabulizeName_noUpper (name : String) : NoUpper (tabulizeName name) := by
  unfold tabulizeName
  split
  · intro c hc; simp at hc
  · split
    · intro c hc
      have : c = 'i' ∨ c = 'd' := by simpa using hc
      rcases this with rfl | rfl <;> decide
    · simp only
      split
      · rename_i h
        have h0 : capIndexFrom 0 name.data = [] := by
          simpa using h
        exact capIndexFrom_eq_nil h0
      · split
        · split
          · exact writeSnake_noUpper _ (by intro c hc; simp at hc)
          · exact writeSnake_noUpper _ (writeSnake_noUpper _ (by intro c hc; simp at hc))
        · exact tabulizeLoop_noUpper _ _ _ _ _ _ _ (by intro c hc; simp at hc)

theorem toLower_of_noUpper {y : String} (h : NoUpper y) : toLower y = y := by
  have : y.data.map Char.toLower = y.data := by
    conv_rhs => rw [← List.map_id y.data]
    apply List.map_congr_left
    intro c hc
    have hu := h c hc
    unfold Char.toLower
    simp only [Char.isUpper, Char.toNat, ge_iff_le, UInt32.le_def, Bool.and_eq_false_iff,
      decide_eq_false_iff_not] at hu ⊢
    have : ¬ (65 ≤ c.val.toNat ∧ c.val.toNat ≤ 90) := by
      rintro ⟨h1, h2⟩
      rcases hu with hu | hu
      · exact hu (by simpa using h1)
      · exact hu (by simpa using h2)
    simp [this]
  unfold toLower
  rw [this]

theorem tabulizeName_of_noUpper {y : String} (h : NoUpper y) : tabulizeName y = y := by
  unfold tabulizeName
  split
  · rename_i h1
    have : y = "" := by simpa using h1
    exact this.symm
  · split
    · rename_i h2
      rw [toLower_of_noUpper h] at h2
      have : y = "id" := by simpa using h2
      exact this.symm
    · simp [capIndexFrom_of_noUpper 0 h]

/-! ## Properties of loadTable -/

theorem loadFields_eq (fs : List StructField) (acc : List Field) :
    loadFields fs acc = acc ++ (fs.filter (fun f => f.tag != "-")).map loadField := by
  induction fs generalizing acc with
  | nil => simp [loadFields]
  | cons ft rest ih =>
    simp only [loadFields]
    by_cases h : ft.tag = "-"
    · simp [h, ih]
    · simp [h, ih, loadField]

theorem loadField_name (ft : StructField) : (loadField ft).name = ft.name := by
  unfold loadField Field.loadTags
  split <;> rfl

theorem loadField_typ (ft : StructField) : (loadField ft).typ = ft.typ := by
  unfold loadField Field.loadTags
  split <;> rfl

theorem loadField_tags (ft : StructField) : ∀ tg ∈ (loadField ft).tags, tg.name = "sql" := by
  unfold loadField Field.loadTags
  split
  · intro tg h; simp at h
  · intro tg h
    simp only [List.nil_append, List.mem_map] at h
    obtain ⟨_, _, rfl⟩ := h
    rfl

theorem loadTable_ptr_struct (s : StructValue) :
    loadTable (.ptr (.struct s)) =
      .ok { name := tabulizeName s.typ.name, fields := (tableFields s.typ).map loadField, tags := [] } := by
  simp [loadTable, loadFields_eq, tableFields]

/-! ## tabulizeName and the identifier column -/

theorem sliceFrom_length_pos {s : String} {lo : Nat} (h : lo < s.length) :
    0 < (sliceFrom s lo).length := by
  have hlen : s.length = s.data.length := rfl
  show 0 < (s.data.drop lo).length
  rw [List.length_drop]
  omega

theorem valuesColName_loadField (ft : StructField) : valuesColName (loadField ft) = ft.name := by
  unfold valuesColName
  have h : (loadField ft).Flags.1.find? (fun tg => tg.name == "field_name") = none := by
    rw [List.find?_eq_none]
    intro tg htg
    have hmem : tg ∈ (loadField ft).tags := by
      unfold Field.Flags at htg
      split at htg
      · exact htg
      · simp at htg
    rw [loadField_tags ft tg hmem]
    decide
  rw [h]
  simp [loadField_name]

theorem find_of_nodup {l : List (StructField × Value)}
    (hnd : (l.map (fun p => p.1.name)).Nodup) {p : StructField × Value} (hp : p ∈ l) :
    l.find? (fun q => q.1.name == p.1.name) = some p := by
  induction l with
  | nil => simp at hp
  | cons a l ih =>
    simp only [List.map_cons, List.nodup_cons] at hnd
    rcases List.mem_cons.1 hp with rfl | hp
    · simp
    · have hne : a.1.name ≠ p.1.name := by
        intro heq
        apply hnd.1
        rw [heq]
        exact List.mem_map.2 ⟨p, hp, rfl⟩
      rw [List.find?_cons_of_neg _ (by simpa using hne)]
      exact ih hnd.2 hp

theorem zip_map_fst {r : StructValue} (hlen : r.vals.length = r.typ.fields.length) :
    (r.typ.fields.zip r.vals).map (fun p => p.1) = r.typ.fields := by
  have := List.map_fst_zip r.typ.fields r.vals (by omega)
  simpa using this

theorem FieldByName_of_mem {r : StructValue} (hr : IsRecord r) {p : StructField × Value}
    (hp : p ∈ r.typ.fields.zip r.vals) : r.FieldByName p.1.name = some p := by
  unfold StructValue.FieldByName
  apply find_of_nodup _ hp
  have h := zip_map_fst hr.1
  have h2 : (r.typ.fields.zip r.vals).map (fun p => p.1.name) =
      ((r.typ.fields.zip r.vals).map (fun p => p.1)).map (fun f => f.name) := by
    rw [List.map_map]; rfl
  rw [h2, h]
  exact hr.2.1

theorem valuesLoop_spec {r : StructValue} (hr : IsRecord r) (ps : List (StructField × Value))
    (hps : ∀ p ∈ ps, p ∈ r.typ.fields.zip r.vals) (cols : List String) (vals : List Value) :
    valuesLoop r ((ps.filter (fun p => p.1.tag != "-")).map (fun p => loadField p.1)) cols vals =
      some (cols ++ (ps.filter (fun p => p.1.tag != "-" && !isZeroField p.1.typ p.2)).map
              (fun p => p.1.name),
            vals ++ (ps.filter (fun p => p.1.tag != "-" && !isZeroField p.1.typ p.2)).map
              (fun p => p.2)) := by
  induction ps generalizing cols vals with
  | nil => simp [valuesLoop]
  | cons p ps ih =>
    have hp := hps p (List.mem_cons_self _ _)
    have hps2 : ∀ q ∈ ps, q ∈ r.typ.fields.zip r.vals :=
      fun q hq => hps q (List.mem_cons_of_mem _ hq)
    by_cases htag : p.1.tag = "-"
    · simp only [List.filter_cons, htag, bne_self_eq_false, Bool.false_and, Bool.false_eq_true,
        if_false]
      exact ih hps2 cols vals
    · have hexp : p.1.exported = true :=
        hr.2.2 p.1 (List.of_mem_zip hp).1 htag
      have htag2 : (p.1.tag != "-") = true := by simpa using htag
      simp only [List.filter_cons, htag2, if_true, List.map_cons, valuesLoop, loadField_name,
        FieldByName_of_mem hr hp, hexp, Bool.not_true, Bool.false_eq_true, if_false,
        Bool.true_and]
      by_cases hz : isZeroField p.1.typ p.2 = true
      · simp only [hz, if_true, Bool.not_true, Bool.false_eq_true, if_false]
        exact ih hps2 cols vals
      · have hz2 : isZeroField p.1.typ p.2 = false := by simpa using hz
        simp only [hz2, Bool.false_eq_true, if_false, Bool.not_false, if_true, List.map_cons,
          valuesColName_loadField]
        rw [ih hps2]
        simp

theorem tableFields_eq_zip {r : StructValue} (hlen : r.vals.length = r.typ.fields.length) :
    (tableFields r.typ).map loadField =
      ((r.typ.fields.zip r.vals).filter (fun p => p.1.tag != "-")).map (fun p => loadField p.1) := by
  unfold tableFields
  conv_lhs => rw [← zip_map_fst hlen]
  rw [List.filter_map, List.map_map]
  rfl

theorem setFields_nil_of_tableFields_nil {r : StructValue} (h : tableFields r.typ = []) :
    setFields r = [] := by
  unfold setFields
  rw [List.filter_eq_nil_iff]
  intro p hp
  have hmem := (List.of_mem_zip hp).1
  unfold tableFields at h
  rw [List.filter_eq_nil_iff] at h
  have := h p.1 hmem
  simp only [Bool.and_eq_true, not_and]
  intro h1
  exact absurd h1 this

/-- What `Values` returns for a record and the table loaded from its type. -/
theorem Values_record {r : StructValue} (hr : IsRecord r) (name : String) :
    Values { name := name, fields := (tableFields r.typ).map loadField, tags := [] }
        (.ptr (.struct r)) =
      some ((setFields r).map (fun p => p.1.name), (setFields r).map (fun p => p.2),
        if tableFields r.typ = [] then some ErrNoField else none) := by
  by_cases hnil : tableFields r.typ = []
  · simp [Values, Table.Fields, hnil, setFields_nil_of_tableFields_nil hnil]
  · have hne : ((tableFields r.typ).map loadField != []) = true := by
      simpa using hnil
    simp only [Values, Table.Fields, hne, if_true, hnil, if_false]
    rw [tableFields_eq_zip hr.1, valuesLoop_spec hr _ (fun p hp => hp)]
    simp [setFields]

/-! ## Properties of the query renderer -/

theorem select_cond_data (t : String) :
    ("* FROM " ++ t).data = '*' :: ' ' :: 'F' :: 'R' :: 'O' :: 'M' :: ' ' :: t.data := rfl

theorem stringsIndex_select_cond (t : String) : stringsIndex ("* FROM " ++ t) "FROM" = 2 := by
  have h : "FROM".data = ['F', 'R', 'O', 'M'] := rfl
  simp [stringsIndex, indexChars, select_cond_data, h, List.isPrefixOf]

theorem sliceFrom_select_cond (t : String) : sliceFrom ("* FROM " ++ t) 2 = "FROM " ++ t := by
  apply String.ext
  simp [sliceFrom, select_cond_data]

/-- The clause set of the session returned by `Select` for a registered record. -/
theorem Select_ptr_clause (s : SQL) (r : StructValue) (tbl : Table) (args : List Arg)
    (hreg : s.getModel r.typ.name = some tbl) :
    (s.Select (.ptr (.struct r)) args).clause =
      { s.CopyQuery.clause with dbSelect := some { condition := "* FROM " ++ tbl.Name, args := [] } } := by
  simp [SQL.Select, selectModel, hreg]

theorem Select_struct_clause (s : SQL) (r : StructValue) (tbl : Table) (args : List Arg)
    (hreg : s.getModel r.typ.name = some tbl) :
    (s.Select (.struct r) args).clause =
      { s.CopyQuery.clause with dbSelect := some { condition := "* FROM " ++ tbl.Name, args := [] } } := by
  simp [SQL.Select, selectModel, hreg]

theorem Select_string_clause (s : SQL) (q : String) (args : List Arg) :
    (s.Select (.val (.str q)) args).clause =
      { s.CopyQuery.clause with dbSelect := some { condition := q, args := args } } := by
  simp [SQL.Select]

theorem CopyQuery_clause_cases (s : SQL) :
    s.CopyQuery.clause = s.clause ∨ s.CopyQuery.clause = Clauses.empty := by
  unfold SQL.CopyQuery
  split
  · right; rfl
  · left; rfl

/-- Rendering of a clause set that holds only a select clause without arguments. -/
theorem BuildQuery_select_only (s : SQL) (c : Clauses) (q : String) (hc : s.clause = c)
    (hsel : c.dbSelect = some { condition := q, args := [] }) (hw : c.where_ = none)
    (ho : c.offset = none) (hl : c.limit = none) (hn : c.count = none) :
    s.BuildQuery = some ("SELECT " ++ q ++ ";", [], none) := by
  subst hc
  simp only [SQL.BuildQuery, buildSelect, buildWhere, buildOffset, buildLimit, hsel, hw, ho, hl, hn,
    cleanArgs]
  simp

theorem CopyQuery_isDone (s : SQL) : s.CopyQuery.isDone = false := by
  unfold SQL.CopyQuery
  by_cases h : s.isDone = true
  · simp [h, SQL.Copy]
  · simp [h]

theorem CopyQuery_of_not_done {s : SQL} (h : s.isDone = false) : s.CopyQuery = s := by
  simp [SQL.CopyQuery, h]

theorem Select_isDone (s : SQL) (q : GoValue) (args : List Arg) :
    (s.Select q args).isDone = false := by
  have h := CopyQuery_isDone s
  unfold SQL.Select selectModel
  split
  · exact h
  · dsimp only
    split <;> exact h
  · dsimp only
    split <;> exact h
  · exact h

/-- Rendering of a clause set that holds a select clause without arguments and
a count clause, the select condition being `* FROM <table>`. -/
theorem BuildQuery_select_count (s : SQL) (c : Clauses) (t : String) (cnt : Clause) (hc : s.clause = c)
    (hsel : c.dbSelect = some { condition := "* FROM " ++ t, args := [] }) (hw : c.where_ = none)
    (ho : c.offset = none) (hl : c.limit = none) (hn : c.count = some cnt) :
    s.BuildQuery = some ("SELECT " ++ cnt.condition ++ "FROM " ++ t ++ ";", [], none) := by
  subst hc
  simp only [SQL.BuildQuery, buildSelect, buildWhere, buildOffset, buildLimit, hsel, hw, ho, hl, hn,
    cleanArgs, stringsIndex_select_cond]
  simp [sliceFrom_select_cond, String.append_assoc]

/-- Rendering of a clause set that holds a select clause without arguments and
a where clause. -/
theorem BuildQuery_select_where (s : SQL) (c : Clauses) (q : String) (w : Clause) (hc : s.clause = c)
    (hsel : c.dbSelect = some { condition := q, args := [] }) (hw : c.where_ = some w)
    (ho : c.offset = none) (hl : c.limit = none) (hn : c.count = none) :
    s.BuildQuery = some ("SELECT " ++ q ++ " WHERE" ++ w.condition ++ ";", [], none) := by
  subst hc
  simp only [SQL.BuildQuery, buildSelect, buildWhere, buildOffset, buildLimit, hsel, hw, ho, hl, hn,
    cleanArgs]
  simp [String.append_assoc]

/-- Rendering of a clause set that holds only a where clause. -/
theorem BuildQuery_where_only (s : SQL) (c : Clauses) (w : Clause) (hc : s.clause = c)
    (hsel : c.dbSelect = none) (hw : c.where_ = some w)
    (ho : c.offset = none) (hl : c.limit = none) :
    s.BuildQuery = some (" WHERE" ++ w.condition ++ ";", [], none) := by
  subst hc
  simp only [SQL.BuildQuery, buildSelect, buildWhere, buildOffset, buildLimit, hsel, hw, ho, hl,
    cleanArgs]
  simp [String.append_assoc]

/-! ## Properties of Where -/

/-- On a value that is not the nil interface `quote` returns a text. -/
theorem quote_of_ne_nil {v : Value} (h : v ≠ Value.nil) : quote v = some (quoted v) := by
  cases v <;> first | exact absurd rfl h | rfl

/-- The nil interface is the zero value of every field type, so no set field
holds it. -/
theorem setFields_ne_nil (r : StructValue) : ∀ p ∈ setFields r, p.2 ≠ Value.nil := by
  intro p hp hnil
  have h := (List.mem_filter.1 hp).2
  rw [hnil] at h
  simp [isZeroField, Value.isZero] at h

theorem whereKeyVal_spec (ps : List (StructField × Value)) (hq : ∀ p ∈ ps, p.2 ≠ Value.nil) :
    ∀ (pre : List Value) (keyVal : String),
      whereKeyVal (pre ++ ps.map (fun p => p.2)) (ps.map (fun p => p.1.name)) pre.length keyVal =
        some (ps.foldl (fun acc p => acc ++ (" " ++ p.1.name ++ "=" ++ quoted p.2)) keyVal) := by
  induction ps with
  | nil => intro pre keyVal; simp [whereKeyVal]
  | cons p ps ih =>
    intro pre keyVal
    simp only [List.map_cons, whereKeyVal, List.foldl_cons]
    have hget : (pre ++ p.2 :: ps.map (fun p => p.2))[pre.length]? = some p.2 := by
      rw [List.getElem?_append_right (le_refl _)]
      simp
    rw [hget]
    simp only [quote_of_ne_nil (hq p (List.mem_cons_self _ _))]
    have := ih (fun q hq2 => hq q (List.mem_cons_of_mem _ hq2)) (pre ++ [p.2])
      (keyVal ++ (" " ++ p.1.name ++ "=" ++ quoted p.2))
    simp only [List.append_assoc, List.singleton_append, List.length_append, List.length_singleton]
      at this
    exact this

theorem tableFields_ne_nil_of_setFields {r : StructValue} (h : setFields r ≠ []) :
    tableFields r.typ ≠ [] :=
  fun hnil => h (setFields_nil_of_tableFields_nil hnil)

/-- The session returned by `Where` for a pointer to a record that has a set field. -/
theorem Where_record (s : SQL) {r : StructValue} (hr : IsRecord r) (hset : setFields r ≠ [])
    (args : List Arg) :
    s.Where (.ptr (.struct r)) args =
      some { s.CopyQuery with clause := { s.CopyQuery.clause with
        where_ := some ⟨(setFields r).foldl
          (fun acc p => acc ++ (" " ++ p.1.name ++ "=" ++ quoted p.2)) "", []⟩ } } := by
  have hv := Values_record hr (tabulizeName r.typ.name)
  simp only [tableFields_ne_nil_of_setFields hset, if_false] at hv
  have hk := whereKeyVal_spec (setFields r) (setFields_ne_nil r) [] ""
  simp only [List.nil_append, List.length_nil] at hk
  simp only [SQL.Where, loadTable_ptr_struct, hv, hk]

theorem trimSpace_where (l : List Char) :
    trimSpace ⟨' ' :: 'W' :: (l ++ [';'])⟩ = ⟨'W' :: (l ++ [';'])⟩ := by
  unfold trimSpace
  apply String.ext
  have h1 : isSpace ' ' = true := by decide
  have h2 : isSpace 'W' = false := by decide
  have h3 : isSpace ';' = false := by decide
  simp only [List.dropWhile_cons, h1, if_true, h2, Bool.false_eq_true, if_false]
  have : ('W' :: (l ++ [';'])).reverse = ';' :: ('W' :: l).reverse := by simp
  rw [this]
  simp only [List.dropWhile_cons, h3, Bool.false_eq_true, if_false]
  simp

/-! ## Properties of creare and update -/

theorem foldl_sep_append (sep : String) (l : List String) (x y : String) :
    l.foldl (fun b v => b ++ (sep ++ v)) (x ++ y) = x ++ l.foldl (fun b v => b ++ (sep ++ v)) y := by
  induction l generalizing y with
  | nil => rfl
  | cons a l ih =>
    simp only [List.foldl_cons]
    rw [String.append_assoc, ih]

theorem joinWith_cons (sep : String) (a : String) (l : List String) :
    joinWith sep (a :: l) = l.foldl (fun b v => b ++ (sep ++ v)) a := by
  induction l generalizing a with
  | nil => rfl
  | cons b l ih =>
    simp only [joinWith, List.foldl_cons]
    rw [ih, foldl_sep_append, String.append_assoc, foldl_sep_append]

theorem writeCols_pos (l : List String) (k : Nat) (buf : String) (hk : k ≠ 0) :
    writeCols l k buf = l.foldl (fun b v => b ++ (", " ++ v)) buf := by
  induction l generalizing k buf with
  | nil => rfl
  | cons a l ih =>
    simp only [writeCols, List.foldl_cons]
    have : (k == 0) = false := by simpa using hk
    simp only [this, Bool.false_eq_true, if_false]
    exact ih (k + 1) _ (by omega)

theorem writeCols_zero (l : List String) (buf : String) :
    writeCols l 0 buf = buf ++ joinWith ", " l := by
  cases l with
  | nil => simp [writeCols, joinWith]
  | cons a l =>
    simp only [writeCols, beq_self_eq_true, if_true]
    rw [writeCols_pos _ _ _ (by omega), joinWith_cons, foldl_sep_append]

theorem writeVals_pos (l : List Value) (hq : ∀ v ∈ l, v ≠ Value.nil) (k : Nat) (buf : String)
    (hk : k ≠ 0) :
    writeVals l k buf = some ((l.map quoted).foldl (fun b v => b ++ (", " ++ v)) buf) := by
  induction l generalizing k buf with
  | nil => rfl
  | cons a l ih =>
    simp only [writeVals, List.map_cons, List.foldl_cons,
      quote_of_ne_nil (hq a (List.mem_cons_self _ _))]
    have : (k == 0) = false := by simpa using hk
    simp only [this, Bool.false_eq_true, if_false]
    exact ih (fun v hv => hq v (List.mem_cons_of_mem _ hv)) (k + 1) _ (by omega)

theorem writeVals_zero (l : List Value) (hq : ∀ v ∈ l, v ≠ Value.nil) (buf : String) :
    writeVals l 0 buf = some (buf ++ joinWith ", " (l.map quoted)) := by
  cases l with
  | nil => simp [writeVals, joinWith]
  | cons a l =>
    simp only [writeVals, beq_self_eq_true, if_true, List.map_cons,
      quote_of_ne_nil (hq a (List.mem_cons_self _ _))]
    rw [writeVals_pos _ (fun v hv => hq v (List.mem_cons_of_mem _ hv)) _ _ (by omega),
      joinWith_cons, foldl_sep_append]

/-- Registering a pointer to a struct with the default loader stores the
loaded table under the type name and leaves the rest of the session alone. -/
theorem Register_getModel (s : SQL) (r : StructValue) (hload : s.loader = some loadTable) :
    ∃ s2, s.Register [.ptr (.struct r)] = some (s2, none) ∧
      s2.getModel r.typ.name =
        some { name := tabulizeName r.typ.name, fields := (tableFields r.typ).map loadField, tags := [] } ∧
      s2.clause = s.clause ∧ s2.isDone = s.isDone ∧ s2.loader = s.loader := by
  refine ⟨{ s with models := (mapSet s.models r.typ.name
    ⟨tabulizeName r.typ.name, (tableFields r.typ).map loadField, []⟩) }, ?_, ?_, rfl, rfl, rfl⟩
  · simp [SQL.Register, hload, registerLoop, loadTable_ptr_struct, registeredName]
  · simp [SQL.getModel, mapSet]

/-- A struct with a mapped field that is not exported cannot be read:
`Values` panics on it. -/
theorem Values_unexported_panics :
    Values { name := "row", fields := [{ name := "id", typ := ⟨Kind.Int64, "int64"⟩, tags := [] }], tags := [] }
      (.ptr (.struct { typ := { name := "row", fields := [{ name := "id", typ := ⟨Kind.Int64, "int64"⟩, tag := "" }] },
                       vals := [Value.int64 1] })) = none := by
  decide

theorem FieldByName_of_nodup {r : StructValue} (hlen : r.vals.length = r.typ.fields.length)
    (hnd : (r.typ.fields.map (fun f => f.name)).Nodup) {p : StructField × Value}
    (hp : p ∈ r.typ.fields.zip r.vals) : r.FieldByName p.1.name = some p := by
  unfold StructValue.FieldByName
  apply find_of_nodup _ hp
  have h := zip_map_fst hlen
  have h2 : (r.typ.fields.zip r.vals).map (fun p => p.1.name) =
      ((r.typ.fields.zip r.vals).map (fun p => p.1)).map (fun f => f.name) := by
    rw [List.map_map]; rfl
  rw [h2, h]
  exact hnd

theorem valuesLoop_unexported {r : StructValue} (hlen : r.vals.length = r.typ.fields.length)
    (hnd : (r.typ.fields.map (fun f => f.name)).Nodup) (ps : List (StructField × Value))
    (hps : ∀ p ∈ ps, p ∈ r.typ.fields.zip r.vals)
    (hex : ∃ p ∈ ps, p.1.tag ≠ "-" ∧ p.1.exported = false)
    (cols : List String) (vals : List Value) :
    valuesLoop r ((ps.filter (fun p => p.1.tag != "-")).map (fun p => loadField p.1)) cols vals =
      none := by
  induction ps generalizing cols vals with
  | nil =>
    obtain ⟨p, hp, _⟩ := hex
    simp at hp
  | cons p ps ih =>
    have hp := hps p (List.mem_cons_self _ _)
    have hps2 : ∀ q ∈ ps, q ∈ r.typ.fields.zip r.vals :=
      fun q hq => hps q (List.mem_cons_of_mem _ hq)
    by_cases htag : p.1.tag = "-"
    · have hex2 : ∃ q ∈ ps, q.1.tag ≠ "-" ∧ q.1.exported = false := by
        obtain ⟨q, hq, hq1, hq2⟩ := hex
        rcases List.mem_cons.1 hq with rfl | hq
        · exact absurd htag hq1
        · exact ⟨q, hq, hq1, hq2⟩
      simp only [List.filter_cons, htag, bne_self_eq_false, Bool.false_eq_true, if_false]
      exact ih hps2 hex2 cols vals
    · have htag2 : (p.1.tag != "-") = true := by simpa using htag
      simp only [List.filter_cons, htag2, if_true, List.map_cons, valuesLoop, loadField_name,
        FieldByName_of_nodup hlen hnd hp]
      by_cases hexp : p.1.exported = true
      · have hex2 : ∃ q ∈ ps, q.1.tag ≠ "-" ∧ q.1.exported = false := by
          obtain ⟨q, hq, hq1, hq2⟩ := hex
          rcases List.mem_cons.1 hq with rfl | hq
          · rw [hexp] at hq2
            exact absurd hq2 (by simp)
          · exact ⟨q, hq, hq1, hq2⟩
        simp only [hexp, Bool.not_true, Bool.false_eq_true, if_false]
        split
        · exact ih hps2 hex2 _ _
        · exact ih hps2 hex2 _ _
      · have hexp2 : p.1.exported = false := by simpa using hexp
        simp [hexp2]

/-- Values panics on every struct that has a mapped field which is not
exported, whatever the fields hold. -/
theorem Values_unexported {r : StructValue} (hlen : r.vals.length = r.typ.fields.length)
    (hnd : (r.typ.fields.map (fun f => f.name)).Nodup)
    (hex : ∃ f ∈ r.typ.fields, f.tag ≠ "-" ∧ f.exported = false) (name : String) :
    Values { name := name, fields := (tableFields r.typ).map loadField, tags := [] }
      (.ptr (.struct r)) = none := by
  obtain ⟨f, hf, hf1, hf2⟩ := hex
  have hnil : tableFields r.typ ≠ [] := by
    intro h
    have hmem : f ∈ tableFields r.typ := by
      unfold tableFields
      exact List.mem_filter.2 ⟨hf, by simpa using hf1⟩
    rw [h] at hmem
    simp at hmem
  have hne : ((tableFields r.typ).map loadField != []) = true := by
    simpa using hnil
  have hfz : f ∈ (r.typ.fields.zip r.vals).map (fun p => p.1) := by
    rw [zip_map_fst hlen]
    exact hf
  obtain ⟨p, hp, hpf⟩ := List.mem_map.1 hfz
  simp only [Values, Table.Fields, hne, if_true]
  rw [tableFields_eq_zip hlen,
    valuesLoop_unexported hlen hnd _ (fun q hq => hq) ⟨p, hp, by rw [hpf]; exact ⟨hf1, hf2⟩⟩]

/-! ## The claims -/

/-- C1: tabulizeName returns exactly the expected snake_case string for each of
the seven identifiers of the acceptance table of TestTabulizeName. -/
theorem tabulizeName_acceptance :
    tabulizeName "gernest" = "gernest" ∧
    tabulizeName "Gernest" = "gernest" ∧
    tabulizeName "OrangeJuice" = "orange_juice" ∧
    tabulizeName "orangeJuice" = "orange_juice" ∧
    tabulizeName "OrangeJuiceIsSweet" = "orange_juice_is_sweet" ∧
    tabulizeName "HTMLOrangeJuice" = "html_orange_juice" ∧
    tabulizeName "normalPILLINGStuffs" = "normal_pilling_stuffs" := by
  refine ⟨?_, ?_, ?_, ?_, ?_, ?_, ?_⟩ <;> decide

/-- C2: tabulizeName is idempotent on ASCII input: mangling the result of
tabulizeName again does not alter it. -/
theorem tabulizeName_idempotent (x : String) (_hascii : ∀ c ∈ x.data, c.toNat < 128) :
    tabulizeName (tabulizeName x) = tabulizeName x :=
  tabulizeName_of_noUpper (tabulizeName_noUpper x)

theorem tabulizeName_idempotent_witness :
    (∀ c ∈ "HTMLOrangeJuice".data, c.toNat < 128) ∧
      tabulizeName (tabulizeName "HTMLOrangeJuice") = tabulizeName "HTMLOrangeJuice" :=
  ⟨by decide, tabulizeName_idempotent "HTMLOrangeJuice" (by decide)⟩

/-- C3, as the claim states it, fails: user{ID int64, name string} is a record
type whose table has the fields ID and name, and for the record user{ID: 1}
Values returns nothing, because it panics when it reads the field `name`,
which is not exported. -/
theorem Values_panics_on_user :
    (∃ t, loadTable (.ptr (.struct (user 0 ""))) = .ok t ∧
      t.fields.map (fun f => f.name) = ["ID", "name"] ∧
      Values t (.ptr (.struct (user 1 ""))) = none) ∧
    setFields (user 1 "") = [({ name := "ID", typ := ⟨Kind.Int64, "int64"⟩, tag := "" }, Value.int64 1)] := by
  refine ⟨⟨_, loadTable_ptr_struct _, ?_, ?_⟩, ?_⟩ <;> decide

/-- C3, amended: zero-value skip in Values for records whose mapped fields are
exported. For a table loaded from a record type and a record of that type
whose mapped fields are all exported, Values returns in `cols` the names and
in `vals` the values of exactly the table fields whose value differs from the
zero value of the field's type, in table field order; the two lists have the
same length, `cols[i]` names the field holding `vals[i]`, and no field
returned holds the zero value of its type. The zero value of a field of
interface type is the nil interface, that of any other field the zero value
of the type the content has. The error returned is nil when the table has a
field. -/
theorem Values_zero_skip (r0 r : StructValue) (t : Table) (hty : r0.typ = r.typ)
    (hr : IsRecord r) (ht : loadTable (.ptr (.struct r0)) = .ok t) :
    ∃ cols vals err, Values t (.ptr (.struct r)) = some (cols, vals, err) ∧
      cols = (setFields r).map (fun p => p.1.name) ∧
      vals = (setFields r).map (fun p => p.2) ∧
      cols.length = vals.length ∧
      (∀ p ∈ r.typ.fields.zip r.vals,
        p ∈ setFields r ↔ (p.1.tag ≠ "-" ∧ isZeroField p.1.typ p.2 = false)) ∧
      (∀ (typ : GoType) (v : Value), isZeroField typ v = true ↔
        ((typ.kind = Kind.Interface ∧ v = Value.nil) ∨
          (typ.kind ≠ Kind.Interface ∧ v.isZero = true))) ∧
      (∀ (i : Nat) (f : StructField) (v : Value), (setFields r)[i]? = some (f, v) →
        cols[i]? = some f.name ∧ vals[i]? = some v) ∧
      (t.fields ≠ [] → err = none) := by
  rw [loadTable_ptr_struct, hty] at ht
  injection ht with ht
  subst ht
  refine ⟨_, _, _, Values_record hr _, rfl, rfl, ?_, ?_, ?_, ?_, ?_⟩
  · rw [List.length_map, List.length_map]
  · intro p hp
    unfold setFields
    rw [List.mem_filter]
    simp [hp]
  · intro typ v
    unfold isZeroField
    by_cases hk : typ.kind = Kind.Interface
    · simp [hk]
    · simp [hk]
  · intro i f v h
    simp [List.getElem?_map, h]
  · intro hne
    have : tableFields r.typ ≠ [] := by
      intro h
      apply hne
      simp [h]
    simp [this]

theorem Values_zero_skip_witness :
    (∃ cols vals err,
      Values { name := "golangster", fields := (tableFields golangsterType).map loadField, tags := [] }
        (.ptr (.struct (golangster 0 "hello"))) = some (cols, vals, err) ∧
      cols = ["Name"] ∧ vals = [Value.str "hello"] ∧ err = none) ∧
    (∃ cols vals err,
      Values { name := "note", fields := (tableFields noteType).map loadField, tags := [] }
        (.ptr (.struct (note (Value.int 0) "" Value.nil))) = some (cols, vals, err) ∧
      cols = ["X"] ∧ vals = [Value.int 0] ∧ err = none) := by
  obtain ⟨cols, vals, err, h, hc, hv, _, _, _, _, he⟩ :=
    Values_zero_skip (golangster 0 "") (golangster 0 "hello")
      { name := "golangster", fields := (tableFields golangsterType).map loadField, tags := [] }
      rfl (by decide) (by rfl)
  obtain ⟨cols2, vals2, err2, h2, hc2, hv2, _, _, _, _, he2⟩ :=
    Values_zero_skip (note Value.nil "" Value.nil) (note (Value.int 0) "" Value.nil)
      { name := "note", fields := (tableFields noteType).map loadField, tags := [] }
      rfl (by decide) (by rfl)
  exact ⟨⟨cols, vals, err, h, by rw [hc]; decide, by rw [hv]; decide, he (by decide)⟩,
    ⟨cols2, vals2, err2, h2, by rw [hc2]; decide, by rw [hv2]; decide, he2 (by decide)⟩⟩

/-- C9: loadTable returns an error and no table exactly when its argument is
not a non-nil pointer to a struct, and it returns a table exactly when the
argument is a pointer to a struct. -/
theorem loadTable_error_iff (model : GoValue) :
    ((∃ err, loadTable model = .error err) ↔ ¬ ∃ s, model = .ptr (.struct s)) ∧
    ((∃ t, loadTable model = .ok t) ↔ ∃ s, model = .ptr (.struct s)) := by
  cases model with
  | ptr e => cases e <;> simp [loadTable]
  | _ => simp [loadTable]

/-- C10: for a pointer to a struct, loadTable returns a table whose name is
tabulizeName of the struct type name and whose fields are the declared fields
with an sql annotation other than "-", in declaration order, each with the
declared name and type; Size is the number of those fields. The type
simpleModel gives the table name "simple_model". -/
theorem loadTable_table (s : StructValue) :
    (∃ t, loadTable (.ptr (.struct s)) = .ok t ∧
      t.Name = tabulizeName s.typ.name ∧
      t.fields.map (fun f => (f.name, f.typ)) =
        (s.typ.fields.filter (fun f => f.tag != "-")).map (fun f => (f.name, f.typ)) ∧
      t.Size = (s.typ.fields.filter (fun f => f.tag != "-")).length) ∧
    (∃ t, loadTable (.ptr (.struct simpleModel)) = .ok t ∧ t.Name = "simple_model") := by
  refine ⟨⟨_, loadTable_ptr_struct s, rfl, ?_, ?_⟩, ⟨_, loadTable_ptr_struct simpleModel, by decide⟩⟩
  · simp only [List.map_map, tableFields]
    apply List.map_congr_left
    intro f _
    simp [loadField_name, loadField_typ]
  · simp [Table.Size, tableFields]

/-- C4: on a session with no other clause, Select called with a pointer to a
registered record, with the record by value, or with the string "* FROM t"
(t the name of the registered table) renders the same statement
"SELECT * FROM t;". -/
theorem Select_renders (s : SQL) (r : StructValue) (tbl : Table) (args : List Arg)
    (hreg : s.getModel r.typ.name = some tbl)
    (hw : s.clause.where_ = none) (ho : s.clause.offset = none) (hl : s.clause.limit = none)
    (hn : s.clause.count = none) :
    (s.Select (.ptr (.struct r)) args).BuildQuery = some ("SELECT * FROM " ++ tbl.Name ++ ";", [], none) ∧
    (s.Select (.struct r) args).BuildQuery = some ("SELECT * FROM " ++ tbl.Name ++ ";", [], none) ∧
    (s.Select (.val (.str ("* FROM " ++ tbl.Name))) []).BuildQuery =
      some ("SELECT * FROM " ++ tbl.Name ++ ";", [], none) := by
  have key : ∀ d : SQL, d.clause = { s.CopyQuery.clause with
        dbSelect := some { condition := "* FROM " ++ tbl.Name, args := [] } } →
      d.BuildQuery = some ("SELECT * FROM " ++ tbl.Name ++ ";", [], none) := by
    intro d hd
    have h := BuildQuery_select_only d _ ("* FROM " ++ tbl.Name) hd rfl
    have hq : "SELECT " ++ ("* FROM " ++ tbl.Name) ++ ";" = "SELECT * FROM " ++ tbl.Name ++ ";" := by
      apply String.ext
      simp
    rw [← hq]
    rcases CopyQuery_clause_cases s with hcq | hcq
    · exact h (by simp [hcq, hw]) (by simp [hcq, ho]) (by simp [hcq, hl]) (by simp [hcq, hn])
    · exact h (by simp [hcq, Clauses.empty]) (by simp [hcq, Clauses.empty])
        (by simp [hcq, Clauses.empty]) (by simp [hcq, Clauses.empty])
  exact ⟨key _ (Select_ptr_clause s r tbl args hreg), key _ (Select_struct_clause s r tbl args hreg),
    key _ (Select_string_clause s _ [])⟩

theorem Select_renders_witness :
    (testDB.Select (.ptr (.struct (golangster 0 ""))) []).BuildQuery =
        some ("SELECT * FROM golangster;", [], none) ∧
    (testDB.Select (.struct (golangster 0 "")) []).BuildQuery =
        some ("SELECT * FROM golangster;", [], none) ∧
    (testDB.Select (.val (.str "* FROM golangster")) []).BuildQuery =
        some ("SELECT * FROM golangster;", [], none) :=
  Select_renders testDB (golangster 0 "")
    { name := "golangster", fields := (tableFields golangsterType).map loadField, tags := [] } []
    (by decide) rfl rfl rfl rfl

/-- C5, as the claim states it, fails: user{ID int64, name string} is
registered, the record user{ID: 1} has exactly one set field, and on the
session, which was not yet executed, Where(record) panics, before or after
Select(record), when it reads the field `name`, which is not exported; no
statement is rendered. -/
theorem Where_Select_panics_on_user :
    ∃ s, testDB.Register [.ptr (.struct (user 0 ""))] = some (s, none) ∧
      (∃ tbl, s.getModel (user 1 "").typ.name = some tbl ∧ tbl.Name = "user") ∧
      s.isDone = false ∧
      setFields (user 1 "") = [({ name := "ID", typ := ⟨Kind.Int64, "int64"⟩, tag := "" }, Value.int64 1)] ∧
      s.Where (.ptr (.struct (user 1 ""))) [] = none ∧
      (s.Select (.ptr (.struct (user 1 ""))) []).Where (.ptr (.struct (user 1 ""))) [] = none := by
  refine ⟨_, rfl, ⟨_, rfl, by decide⟩, rfl, by decide, rfl, rfl⟩

/-- C5, amended: for a registered record type with table name t and a record
whose mapped fields are all exported, passed by pointer, with exactly one set
field f holding v, a session that was not yet executed renders "SELECT * FROM t WHERE f=<v>;" after Where(record) and
Select(record), in either order; <v> is v in single quotes when v is a string
and v printed bare otherwise, and it is the text quote returns for v. With
Where alone the trimmed rendering is "WHERE f=<v>;". -/
theorem Where_Select_renders (s : SQL) (r : StructValue) (tbl : Table) (f : StructField) (v : Value)
    (hreg : s.getModel r.typ.name = some tbl) (hr : IsRecord r) (hone : setFields r = [(f, v)])
    (hnd : s.isDone = false) (ho : s.clause.offset = none) (hl : s.clause.limit = none)
    (hn : s.clause.count = none) :
    (∃ a, s.Where (.ptr (.struct r)) [] = some a ∧
      (a.Select (.ptr (.struct r)) []).BuildQuery =
        some ("SELECT * FROM " ++ tbl.Name ++ " WHERE " ++ f.name ++ "=" ++ quoted v ++ ";", [], none)) ∧
    (∃ b, (s.Select (.ptr (.struct r)) []).Where (.ptr (.struct r)) [] = some b ∧
      b.BuildQuery =
        some ("SELECT * FROM " ++ tbl.Name ++ " WHERE " ++ f.name ++ "=" ++ quoted v ++ ";", [], none)) ∧
    (s.clause.dbSelect = none → ∃ a q, s.Where (.ptr (.struct r)) [] = some a ∧
      a.BuildQuery = some (q, [], none) ∧
      trimSpace q = "WHERE " ++ f.name ++ "=" ++ quoted v ++ ";") ∧
    (∀ str, v = Value.str str → quoted v = "'" ++ str ++ "'") ∧
    ((∀ str, v ≠ Value.str str) → quoted v = v.sprint) ∧
    quote v = some (quoted v) := by
  have hset : setFields r ≠ [] := by simp [hone]
  have hvnil : v ≠ Value.nil := setFields_ne_nil r (f, v) (by rw [hone]; simp)
  have hcond : (setFields r).foldl (fun acc p => acc ++ (" " ++ p.1.name ++ "=" ++ quoted p.2)) "" =
      " " ++ f.name ++ "=" ++ quoted v := by
    rw [hone]
    apply String.ext
    simp
  have hstmt : "SELECT " ++ ("* FROM " ++ tbl.Name) ++ " WHERE" ++ (" " ++ f.name ++ "=" ++ quoted v) ++ ";" =
      "SELECT * FROM " ++ tbl.Name ++ " WHERE " ++ f.name ++ "=" ++ quoted v ++ ";" := by
    apply String.ext
    simp
  refine ⟨?_, ?_, ?_, ?_, ?_, quote_of_ne_nil hvnil⟩
  · refine ⟨_, Where_record s hr hset [], ?_⟩
    rw [CopyQuery_of_not_done hnd, hcond, ← hstmt]
    apply BuildQuery_select_where _ _ ("* FROM " ++ tbl.Name)
      ⟨" " ++ f.name ++ "=" ++ quoted v, []⟩ (Select_ptr_clause _ r tbl [] (by simpa [SQL.getModel] using hreg))
    · rfl
    · simp [SQL.CopyQuery, hnd]
    · simp [SQL.CopyQuery, hnd, ho]
    · simp [SQL.CopyQuery, hnd, hl]
    · simp [SQL.CopyQuery, hnd, hn]
  · refine ⟨_, Where_record _ hr hset [], ?_⟩
    rw [CopyQuery_of_not_done (Select_isDone _ _ _), hcond, ← hstmt]
    apply BuildQuery_select_where _ _ ("* FROM " ++ tbl.Name) ⟨" " ++ f.name ++ "=" ++ quoted v, []⟩ rfl
    · simp [Select_ptr_clause s r tbl [] hreg]
    · rfl
    · simp [Select_ptr_clause s r tbl [] hreg, CopyQuery_of_not_done hnd, ho]
    · simp [Select_ptr_clause s r tbl [] hreg, CopyQuery_of_not_done hnd, hl]
    · simp [Select_ptr_clause s r tbl [] hreg, CopyQuery_of_not_done hnd, hn]
  · intro hsel
    refine ⟨_, " WHERE" ++ (" " ++ f.name ++ "=" ++ quoted v) ++ ";", Where_record s hr hset [], ?_, ?_⟩
    · rw [CopyQuery_of_not_done hnd, hcond]
      exact BuildQuery_where_only _ _ ⟨" " ++ f.name ++ "=" ++ quoted v, []⟩ rfl hsel rfl ho hl
    · have hq : " WHERE" ++ (" " ++ f.name ++ "=" ++ quoted v) ++ ";" =
          ⟨' ' :: 'W' :: (("HERE " ++ f.name ++ "=" ++ quoted v).data ++ [';'])⟩ := by
        apply String.ext
        simp
      have hq2 : "WHERE " ++ f.name ++ "=" ++ quoted v ++ ";" =
          ⟨'W' :: (("HERE " ++ f.name ++ "=" ++ quoted v).data ++ [';'])⟩ := by
        apply String.ext
        simp
      rw [hq, hq2]
      exact trimSpace_where _
  · intro str h
    subst h
    rfl
  · intro h
    cases v with
    | str x => exact absurd rfl (h x)
    | nil => exact absurd rfl hvnil
    | _ => rfl

theorem Where_Select_renders_witness :
    (∃ a, testDB.Where (.ptr (.struct (golangster 0 "gernest"))) [] = some a ∧
      (a.Select (.ptr (.struct (golangster 0 "gernest"))) []).BuildQuery =
        some ("SELECT * FROM golangster WHERE Name='gernest';", [], none)) ∧
    (∃ a q, testDB.Where (.ptr (.struct (golangster 0 "gernest"))) [] = some a ∧
      a.BuildQuery = some (q, [], none) ∧ trimSpace q = "WHERE Name='gernest';") := by
  have h := Where_Select_renders testDB (golangster 0 "gernest")
    { name := "golangster", fields := (tableFields golangsterType).map loadField, tags := [] }
    { name := "Name", typ := ⟨Kind.String, "string"⟩, tag := "" } (Value.str "gernest")
    (by decide) (by decide) (by decide) rfl rfl rfl rfl
  exact ⟨h.1, h.2.2.1 rfl⟩

/-- C6: for a registered record type with table name t and a column expression
c, Select(record).Count(c) renders exactly "SELECT  COUNT (c) FROM t;": the
select condition is reduced to its "FROM t" part and prefixed by the count
expression. -/
theorem Select_Count_renders (s : SQL) (r : StructValue) (tbl : Table) (c : String) (args : List Arg)
    (hreg : s.getModel r.typ.name = some tbl)
    (hw : s.clause.where_ = none) (ho : s.clause.offset = none) (hl : s.clause.limit = none) :
    ((s.Select (.ptr (.struct r)) args).Count c).BuildQuery =
      some ("SELECT  COUNT (" ++ c ++ ") FROM " ++ tbl.Name ++ ";", [], none) ∧
    ((s.Select (.struct r) args).Count c).BuildQuery =
      some ("SELECT  COUNT (" ++ c ++ ") FROM " ++ tbl.Name ++ ";", [], none) := by
  have hstmt : "SELECT " ++ (" COUNT (" ++ c ++ ") ") ++ "FROM " ++ tbl.Name ++ ";" =
      "SELECT  COUNT (" ++ c ++ ") FROM " ++ tbl.Name ++ ";" := by
    apply String.ext
    simp
  have key : ∀ d : SQL, d.isDone = false → d.clause = { s.CopyQuery.clause with
        dbSelect := some { condition := "* FROM " ++ tbl.Name, args := [] } } →
      (d.Count c).BuildQuery = some ("SELECT  COUNT (" ++ c ++ ") FROM " ++ tbl.Name ++ ";", [], none) := by
    intro d hd hcl
    rw [← hstmt]
    have hcl2 : (d.Count c).clause = { s.CopyQuery.clause with
        dbSelect := some { condition := "* FROM " ++ tbl.Name, args := [] },
        count := some { condition := " COUNT (" ++ c ++ ") ", args := [] } } := by
      simp [SQL.Count, CopyQuery_of_not_done hd, hcl]
    have h := BuildQuery_select_count (d.Count c) _ tbl.Name ⟨" COUNT (" ++ c ++ ") ", []⟩ hcl2 rfl
    rcases CopyQuery_clause_cases s with hcq | hcq
    · exact h (by simp [hcq, hw]) (by simp [hcq, ho]) (by simp [hcq, hl]) rfl
    · exact h (by simp [hcq, Clauses.empty]) (by simp [hcq, Clauses.empty])
        (by simp [hcq, Clauses.empty]) rfl
  exact ⟨key _ (Select_isDone _ _ _) (Select_ptr_clause s r tbl args hreg),
    key _ (Select_isDone _ _ _) (Select_struct_clause s r tbl args hreg)⟩

theorem Select_Count_renders_witness :
    ((testDB.Select (.ptr (.struct (golangster 0 ""))) []).Count "*").BuildQuery =
      some ("SELECT  COUNT (*) FROM golangster;", [], none) :=
  (Select_Count_renders testDB (golangster 0 "")
    { name := "golangster", fields := (tableFields golangsterType).map loadField, tags := [] } "*" []
    (by decide) rfl rfl rfl).1

/-- C7, as the claim states it, fails: user{ID: 1} is a pointer to a struct
with two mapped fields, and creare returns no statement for it: it panics when
Values reads the field `name`, which is not exported. -/
theorem creare_panics_on_user :
    tableFields (user 1 "").typ ≠ [] ∧ testDB.loader = some loadTable ∧
      testDB.creare (.ptr (.struct (user 1 ""))) = none := by
  refine ⟨by decide, rfl, rfl⟩

/-- C7, amended: for a record (a pointer to a struct with at least one mapped
field) whose mapped fields are all exported, creare returns
"INSERT INTO <table> (" + the names of the set fields joined by ", " +
") VALUES (" + their values joined by ", " + ");", the fields in
declaration order and zero-valued fields left out of both lists; a string value
is wrapped in single quotes and an integer value printed bare. -/
theorem creare_renders (s : SQL) (r : StructValue) (hload : s.loader = some loadTable)
    (hr : IsRecord r) (hf : tableFields r.typ ≠ []) :
    s.creare (.ptr (.struct r)) =
      some (.ok ("INSERT INTO " ++ tabulizeName r.typ.name ++ " (" ++
        joinWith ", " ((setFields r).map (fun p => p.1.name)) ++ ") VALUES (" ++
        joinWith ", " ((setFields r).map (fun p => quoted p.2)) ++ ");")) ∧
    (∀ str, quoted (Value.str str) = "'" ++ str ++ "'") ∧
    (∀ n, quoted (Value.int n) = fmtInt n ∧ quoted (Value.int64 n) = fmtInt n) ∧
    (∀ p ∈ setFields r, quote p.2 = some (quoted p.2)) := by
  refine ⟨?_, fun _ => rfl, fun _ => ⟨rfl, rfl⟩,
    fun p hp => quote_of_ne_nil (setFields_ne_nil r p hp)⟩
  have hv := Values_record hr (tabulizeName r.typ.name)
  simp only [hf, if_false] at hv
  have hq : ∀ v ∈ (setFields r).map (fun p => p.2), v ≠ Value.nil := by
    intro v hv2
    obtain ⟨p, hp, rfl⟩ := List.mem_map.1 hv2
    exact setFields_ne_nil r p hp
  simp only [SQL.creare, hload, loadTable_ptr_struct, hv, writeCols_zero, writeVals_zero _ hq,
    Table.Name, List.map_map]
  congr 2
  apply String.ext
  simp [Function.comp_def]

theorem creare_renders_witness :
    testDB.creare (.ptr (.struct (golangster 2 "gernest"))) =
        some (.ok "INSERT INTO golangster (ID, Name) VALUES (2, 'gernest');") ∧
      testDB.creare (.ptr (.struct (note (Value.int 0) "n" Value.nil))) =
        some (.ok "INSERT INTO note (X, Name) VALUES (0, 'n');") :=
  ⟨(creare_renders testDB (golangster 2 "gernest") rfl (by decide) (by decide)).1,
    (creare_renders testDB (note (Value.int 0) "n" Value.nil) rfl (by decide) (by decide)).1⟩

/-- The column name of a field built by `loadTable` is the mangled field name,
whatever its sql annotation: the tags `loadTags` stores are all named "sql" and
`ColumnName` looks for a tag named "field_name". -/
theorem ColumnName_loadField (ft : StructField) :
    (loadField ft).ColumnName = tabulizeName ft.name := by
  unfold Field.ColumnName
  have h : (loadField ft).tags.find? (fun v => v.name == "field_name") = none := by
    rw [List.find?_eq_none]
    intro tg htg
    rw [loadField_tags ft tg htg]
    decide
  rw [h]
  simp [loadField_name]

/-- What `cleanArgs` returns is its argument list. -/
theorem cleanArgs_eq (args : List QueryArg) : cleanArgs args = args := by
  unfold cleanArgs
  cases args with
  | nil => rfl
  | cons a as => simp

/-- When `BuildQuery` panics: exactly when there is no select clause and an
offset or a limit clause is set. -/
theorem BuildQuery_eq_none_iff (s : SQL) :
    s.BuildQuery = none ↔
      s.clause.dbSelect = none ∧ (s.clause.offset ≠ none ∨ s.clause.limit ≠ none) := by
  unfold SQL.BuildQuery buildLimit buildOffset
  cases hsel : s.clause.dbSelect <;> cases hoff : s.clause.offset <;>
    cases hlim : s.clause.limit <;> simp

/-- C11: the column name of a field produced by loadTable. The code gives every
field the column name tabulizeName(field name), with or without annotation: the
field Name annotated sql:"full_name" has the column name "name", not
"full_name". -/
theorem ColumnName_annotation_ignored :
    (∀ s : StructValue, ∃ t, loadTable (.ptr (.struct s)) = .ok t ∧
      t.fields.map Field.ColumnName = (tableFields s.typ).map (fun f => tabulizeName f.name)) ∧
    (∃ t, loadTable (.ptr (.struct tagged)) = .ok t ∧
      t.fields.map Field.ColumnName = ["name"] ∧
      t.fields.map Field.ColumnName ≠ ["full_name"]) := by
  have hgen : ∀ s : StructValue, ∃ t, loadTable (.ptr (.struct s)) = .ok t ∧
      t.fields.map Field.ColumnName = (tableFields s.typ).map (fun f => tabulizeName f.name) := by
    intro s
    refine ⟨_, loadTable_ptr_struct s, ?_⟩
    simp only [List.map_map]
    apply List.map_congr_left
    intro f _
    exact ColumnName_loadField f
  refine ⟨hgen, ?_⟩
  obtain ⟨t, ht, hcols⟩ := hgen tagged
  have hname : (tableFields tagged.typ).map (fun f => tabulizeName f.name) = ["name"] := by decide
  refine ⟨t, ht, ?_, ?_⟩
  · rw [hcols, hname]
  · rw [hcols, hname]
    decide

/-- C12: the segments written by tabulizeName do not always partition the
identifier. For orangeJuiceIsSweet the leading lowercase run is written twice:
the result is "orange_orangejuice_is_sweet", and without its underscores it is
not the lowercase form of the identifier. -/
theorem tabulizeName_repeats_leading_run :
    tabulizeName "orangeJuiceIsSweet" = "orange_orangejuice_is_sweet" ∧
    dropUnderscores (tabulizeName "orangeJuiceIsSweet") = "orangeorangejuiceissweet" ∧
    toLower "orangeJuiceIsSweet" = "orangejuiceissweet" ∧
    dropUnderscores (tabulizeName "orangeJuiceIsSweet") ≠ toLower "orangeJuiceIsSweet" := by
  refine ⟨?_, ?_, ?_, ?_⟩ <;> decide

/-- C13: tabulizeName splits a run of uppercase letters that ends the
identifier before its last letter: HTML gives "htm_l" and UpdatedAT gives
"updated_a_t". -/
theorem tabulizeName_splits_trailing_run :
    tabulizeName "HTML" = "htm_l" ∧ tabulizeName "UpdatedAT" = "updated_a_t" := by
  constructor <;> decide

/-- C15: cleanArgs returns the argument list it was given: a string argument
is not replaced by its escaped form. For the argument "<b>", whose escaped
form is "&lt;b&gt;", it returns "<b>", and so does BuildQuery for a select
clause with that argument. -/
theorem cleanArgs_does_not_escape :
    (∀ args : List QueryArg, cleanArgs args = args) ∧
    cleanArgs [QueryArg.elem (some (Value.str "<b>"))] = [QueryArg.elem (some (Value.str "<b>"))] ∧
    htmlEscape "<b>" = "&lt;b&gt;" ∧
    cleanArgs [QueryArg.elem (some (Value.str "<b>"))] ≠
      [QueryArg.elem (some (Value.str (htmlEscape "<b>")))] ∧
    (testDB.Select (.val (.str "* FROM t WHERE a=$1")) [some (Value.str "<b>")]).BuildQuery =
      some ("SELECT * FROM t WHERE a=$1;", [QueryArg.slice [some (Value.str "<b>")]], none) := by
  refine ⟨cleanArgs_eq, ?_, ?_, ?_, ?_⟩ <;> decide

/-- C18: BuildQuery is not total. It panics exactly on the sessions that have
no select clause and an offset or a limit clause; a session on which only
Limit(n) or only Offset(n) was called is one of them. -/
theorem BuildQuery_panics_without_select :
    (∀ s : SQL, s.BuildQuery = none ↔
      s.clause.dbSelect = none ∧ (s.clause.offset ≠ none ∨ s.clause.limit ≠ none)) ∧
    (∀ n : Int, (testDB.Limit n).BuildQuery = none) ∧
    (∀ n : Int, (testDB.Offset n).BuildQuery = none) := by
  refine ⟨BuildQuery_eq_none_iff, ?_, ?_⟩
  · intro n
    rw [BuildQuery_eq_none_iff]
    exact ⟨rfl, Or.inr (by simp [SQL.Limit])⟩
  · intro n
    rw [BuildQuery_eq_none_iff]
    exact ⟨rfl, Or.inl (by simp [SQL.Offset])⟩

/-! ## Limit and offset: what the code renders -/

/-- Rendering of a clause set that holds a select clause without arguments and
a limit clause. -/
theorem BuildQuery_select_limit (s : SQL) (c : Clauses) (q : String) (l : Clause) (hc : s.clause = c)
    (hsel : c.dbSelect = some { condition := q, args := [] }) (hw : c.where_ = none)
    (ho : c.offset = none) (hl : c.limit = some l) (hn : c.count = none) :
    s.BuildQuery = some ("SELECT " ++ q ++ "LIMIT" ++ l.condition ++ ";", [], none) := by
  subst hc
  simp only [SQL.BuildQuery, buildSelect, buildWhere, buildOffset, buildLimit, hsel, hw, ho, hl, hn,
    cleanArgs]
  simp [String.append_assoc]

/-- Rendering of a clause set that holds a select clause without arguments and
an offset clause. -/
theorem BuildQuery_select_offset (s : SQL) (c : Clauses) (q : String) (o : Clause) (hc : s.clause = c)
    (hsel : c.dbSelect = some { condition := q, args := [] }) (hw : c.where_ = none)
    (ho : c.offset = some o) (hl : c.limit = none) (hn : c.count = none) :
    s.BuildQuery = some ("SELECT " ++ q ++ "OFFSET " ++ o.condition ++ ";", [], none) := by
  subst hc
  simp only [SQL.BuildQuery, buildSelect, buildWhere, buildOffset, buildLimit, hsel, hw, ho, hl, hn,
    cleanArgs]
  simp [String.append_assoc]

/-- What Select(record).Limit(n) renders for a registered record type with
table name t: "SELECT * FROM tLIMIT LIMIT n;". -/
theorem Select_Limit_renders (s : SQL) (r : StructValue) (tbl : Table) (n : Int) (args : List Arg)
    (hreg : s.getModel r.typ.name = some tbl)
    (hw : s.clause.where_ = none) (ho : s.clause.offset = none) (hn : s.clause.count = none) :
    ((s.Select (.ptr (.struct r)) args).Limit n).BuildQuery =
      some ("SELECT * FROM " ++ tbl.Name ++ "LIMIT LIMIT " ++ fmtInt n ++ ";", [], none) := by
  have hstmt : "SELECT " ++ ("* FROM " ++ tbl.Name) ++ "LIMIT" ++ (" LIMIT " ++ fmtInt n) ++ ";" =
      "SELECT * FROM " ++ tbl.Name ++ "LIMIT LIMIT " ++ fmtInt n ++ ";" := by
    apply String.ext
    simp
  have hd := Select_isDone s (.ptr (.struct r)) args
  have hcl := Select_ptr_clause s r tbl args hreg
  have hcl2 : ((s.Select (.ptr (.struct r)) args).Limit n).clause = { s.CopyQuery.clause with
      dbSelect := some { condition := "* FROM " ++ tbl.Name, args := [] },
      limit := some { condition := " LIMIT " ++ fmtInt n, args := [] } } := by
    simp [SQL.Limit, CopyQuery_of_not_done hd, hcl]
  rw [← hstmt]
  have h := BuildQuery_select_limit _ _ ("* FROM " ++ tbl.Name) ⟨" LIMIT " ++ fmtInt n, []⟩ hcl2 rfl
  rcases CopyQuery_clause_cases s with hcq | hcq
  · exact h (by simp [hcq, hw]) (by simp [hcq, ho]) rfl (by simp [hcq, hn])
  · exact h (by simp [hcq, Clauses.empty]) (by simp [hcq, Clauses.empty]) rfl
      (by simp [hcq, Clauses.empty])

/-- What Select(record).Offset(n) renders for a registered record type with
table name t: "SELECT * FROM tOFFSET  LIMIT n;". -/
theorem Select_Offset_renders (s : SQL) (r : StructValue) (tbl : Table) (n : Int) (args : List Arg)
    (hreg : s.getModel r.typ.name = some tbl)
    (hw : s.clause.where_ = none) (hl : s.clause.limit = none) (hn : s.clause.count = none) :
    ((s.Select (.ptr (.struct r)) args).Offset n).BuildQuery =
      some ("SELECT * FROM " ++ tbl.Name ++ "OFFSET  LIMIT " ++ fmtInt n ++ ";", [], none) := by
  have hstmt : "SELECT " ++ ("* FROM " ++ tbl.Name) ++ "OFFSET " ++ (" LIMIT " ++ fmtInt n) ++ ";" =
      "SELECT * FROM " ++ tbl.Name ++ "OFFSET  LIMIT " ++ fmtInt n ++ ";" := by
    apply String.ext
    simp
  have hd := Select_isDone s (.ptr (.struct r)) args
  have hcl := Select_ptr_clause s r tbl args hreg
  have hcl2 : ((s.Select (.ptr (.struct r)) args).Offset n).clause = { s.CopyQuery.clause with
      dbSelect := some { condition := "* FROM " ++ tbl.Name, args := [] },
      offset := some { condition := " LIMIT " ++ fmtInt n, args := [] } } := by
    simp [SQL.Offset, CopyQuery_of_not_done hd, hcl]
  rw [← hstmt]
  have h := BuildQuery_select_offset _ _ ("* FROM " ++ tbl.Name) ⟨" LIMIT " ++ fmtInt n, []⟩ hcl2 rfl
  rcases CopyQuery_clause_cases s with hcq | hcq
  · exact h (by simp [hcq, hw]) rfl (by simp [hcq, hl]) (by simp [hcq, hn])
  · exact h (by simp [hcq, Clauses.empty]) rfl (by simp [hcq, Clauses.empty])
      (by simp [hcq, Clauses.empty])

/-- C14: the argument list BuildQuery returns is not the concatenation of the
arguments of the clauses. Select(record).Where("name=$1", v) returns the empty
list (the where arguments are added only when the select clause has
arguments), and Select("* FROM t WHERE a=$1", x).Where("b=$2", y) returns a
list of two slices, [x] and [y], each slice being one element. -/
theorem BuildQuery_args_not_concatenated :
    (∀ v : Value,
      ((testDB.Select (.ptr (.struct (golangster 0 ""))) []).Where (.val (.str "name=$1"))
          [some v]).bind SQL.BuildQuery =
        some ("SELECT * FROM golangster WHEREname=$1;", [], none)) ∧
    (∀ x y : Value,
      ((testDB.Select (.val (.str "* FROM t WHERE a=$1")) [some x]).Where (.val (.str "b=$2"))
          [some y]).bind SQL.BuildQuery =
        some ("SELECT * FROM t WHERE a=$1 WHEREb=$2;",
          [QueryArg.slice [some x], QueryArg.slice [some y]], none)) ∧
    (∀ x y : Value, [QueryArg.slice [some x], QueryArg.slice [some y]] ≠
      [QueryArg.elem (some x), QueryArg.elem (some y)]) := by
  refine ⟨fun v => rfl, fun x y => rfl, fun x y h => ?_⟩
  simp at h

/-- C16: Select(record).Limit(n) does not render one LIMIT clause separated
from the table name. For the registered type golangster and n = 5 the
statement is "SELECT * FROM golangsterLIMIT LIMIT 5;": the keyword LIMIT
occurs twice and the first occurrence follows the table name directly. -/
theorem Select_Limit_keyword_twice :
    ((testDB.Select (.ptr (.struct (golangster 0 ""))) []).Limit 5).BuildQuery =
      some ("SELECT * FROM golangsterLIMIT LIMIT 5;", [], none) ∧
    occurrences "SELECT * FROM golangsterLIMIT LIMIT 5;" "LIMIT" = 2 ∧
    stringsIndex "SELECT * FROM golangsterLIMIT LIMIT 5;" "golangsterLIMIT" = 14 := by
  refine ⟨?_, ?_, ?_⟩ <;> decide

/-- C17: Select(record).Offset(n) renders the keyword LIMIT. For the
registered type golangster and n = 5 the statement is
"SELECT * FROM golangsterOFFSET  LIMIT 5;": OFFSET is followed by " LIMIT 5",
not by 5. -/
theorem Select_Offset_renders_limit :
    ((testDB.Select (.ptr (.struct (golangster 0 ""))) []).Offset 5).BuildQuery =
      some ("SELECT * FROM golangsterOFFSET  LIMIT 5;", [], none) ∧
    occurrences "SELECT * FROM golangsterOFFSET  LIMIT 5;" "LIMIT" = 1 ∧
    stringsIndex "SELECT * FROM golangsterOFFSET  LIMIT 5;" "OFFSET 5" = -1 := by
  refine ⟨?_, ?_, ?_⟩ <;> decide

/-! ## Chain calls on an executed session -/

theorem CopyQuery_of_done {s : SQL} (h : s.isDone = true) : s.CopyQuery = s.Copy := by
  simp [SQL.CopyQuery, h]

/-- The session `Where` returns on an executed session: the copy, with at most
a where clause. -/
theorem Where_of_done {s : SQL} (hd : s.isDone = true) (value : GoValue) (args : List Arg)
    {d : SQL} (hw : s.Where value args = some d) :
    ∃ w, d = { s.Copy with clause := { Clauses.empty with where_ := w } } := by
  unfold SQL.Where at hw
  rw [CopyQuery_of_done hd] at hw
  simp only at hw
  split at hw
  · split at hw
    · injection hw with hw
      exact ⟨_, hw.symm⟩
    · exact absurd hw (by simp)
  · split at hw
    · injection hw with hw
      exact ⟨none, hw.symm⟩
    · split at hw
      · exact absurd hw (by simp)
      · injection hw with hw
        exact ⟨none, hw.symm⟩
      · split at hw
        · exact absurd hw (by simp)
        · injection hw with hw
          exact ⟨_, hw.symm⟩
  · injection hw with hw
    exact ⟨none, hw.symm⟩

/-- The session `Select` returns on an executed session: the copy, with at
most a select clause. -/
theorem Select_of_done {s : SQL} (hd : s.isDone = true) (query : GoValue) (args : List Arg) :
    ∃ sel, s.Select query args = { s.Copy with clause := { Clauses.empty with dbSelect := sel } } := by
  unfold SQL.Select selectModel
  rw [CopyQuery_of_done hd]
  simp only
  split
  · exact ⟨_, rfl⟩
  · split
    · exact ⟨none, rfl⟩
    · exact ⟨_, rfl⟩
  · split
    · exact ⟨none, rfl⟩
    · exact ⟨_, rfl⟩
  · exact ⟨none, rfl⟩

/-- A chain call on an executed session returns a new object and leaves the
objects of the store as they were. -/
theorem chainCall_of_done {h : Store} {p : Nat} {s : SQL} (hs : h[p]? = some s)
    (hd : s.isDone = true) (method : SQL → Option SQL) {d : SQL} (hm : method s = some d) :
    chainCall h p method = some (h ++ [d], h.length) := by
  simp [chainCall, hs, hm, hd]

/-- A chain call on a session that was not executed changes the receiver in
place and returns it. -/
theorem chainCall_of_not_done {h : Store} {p : Nat} {s : SQL} (hs : h[p]? = some s)
    (hd : s.isDone = false) (method : SQL → Option SQL) {d : SQL} (hm : method s = some d) :
    chainCall h p method = some (h.set p d, p) := by
  simp [chainCall, hs, hm, hd]

/-- C19, as the claim states it, fails: on the executed session executedDB,
which has a where clause, Limit(5) returns a session without where clause, so
its clause set is not the clause set of the parent with the limit clause
replaced. -/
theorem chain_clone_not_seeded :
    executedDB.isDone = true ∧
    executedDB.clause.where_ = some { condition := " id=1", args := [] } ∧
    (executedDB.Limit 5).clause.where_ = none ∧
    (executedDB.Limit 5).clause ≠
      { executedDB.clause with limit := some { condition := " LIMIT 5", args := [] } } := by
  refine ⟨rfl, rfl, rfl, ?_⟩
  decide

/-- C19, amended: when Select, Where, Limit, Offset or Count is called on a
session whose executed flag is set, the returned session is a new session (a
new object, the store is otherwise unchanged) that shares the registry, the
connection and the adopter of the parent, and whose clause set holds at most
the clause named by the call: no clause of the parent is carried over. -/
theorem chain_on_executed_session (s : SQL) (hd : s.isDone = true) (n : Int) (c : String)
    (q : GoValue) (args : List Arg) :
    ((s.Limit n).clause =
        { Clauses.empty with limit := some { condition := " LIMIT " ++ fmtInt n, args := [] } } ∧
      SharesWith (s.Limit n) s) ∧
    ((s.Offset n).clause =
        { Clauses.empty with offset := some { condition := " LIMIT " ++ fmtInt n, args := [] } } ∧
      SharesWith (s.Offset n) s) ∧
    ((s.Count c).clause =
        { Clauses.empty with count := some { condition := " COUNT (" ++ c ++ ") ", args := [] } } ∧
      SharesWith (s.Count c) s) ∧
    ((∃ sel, (s.Select q args).clause = { Clauses.empty with dbSelect := sel }) ∧
      SharesWith (s.Select q args) s) ∧
    (∀ d, s.Where q args = some d →
      (∃ w, d.clause = { Clauses.empty with where_ := w }) ∧ SharesWith d s) ∧
    (∀ (h : Store) (p : Nat) (method : SQL → Option SQL) (d : SQL), h[p]? = some s →
      method s = some d → chainCall h p method = some (h ++ [d], h.length)) := by
  refine ⟨?_, ?_, ?_, ?_, ?_, fun h p method d hs hm => chainCall_of_done hs hd method hm⟩
  · simp [SQL.Limit, CopyQuery_of_done hd, SQL.Copy, SharesWith]
  · simp [SQL.Offset, CopyQuery_of_done hd, SQL.Copy, SharesWith]
  · simp [SQL.Count, CopyQuery_of_done hd, SQL.Copy, SharesWith]
  · obtain ⟨sel, hsel⟩ := Select_of_done hd q args
    rw [hsel]
    exact ⟨⟨sel, rfl⟩, rfl, rfl, rfl⟩
  · intro d hw
    obtain ⟨w, hw2⟩ := Where_of_done hd q args hw
    rw [hw2]
    exact ⟨⟨w, rfl⟩, rfl, rfl, rfl⟩

theorem chain_on_executed_session_witness :
    executedDB.isDone = true ∧
    (executedDB.Limit 5).clause =
      { Clauses.empty with limit := some { condition := " LIMIT 5", args := [] } } ∧
    SharesWith (executedDB.Limit 5) executedDB ∧
    LimitAt [executedDB] 0 5 = some ([executedDB, executedDB.Limit 5], 1) := by
  have h := chain_on_executed_session executedDB rfl 5 "*" GoValue.nil []
  exact ⟨rfl, h.1.1, h.1.2,
    h.2.2.2.2.2 [executedDB] 0 (fun s => some (s.Limit 5)) (executedDB.Limit 5) rfl rfl⟩

/-- C20, as the claim states it, fails: on a session that was not executed
both calls work on the session itself. With s the test session after
Select(record), a := s.Where(record) is s, and after b := s.Limit(5) the query
rendered from a has changed. -/
theorem branching_changes_sibling :
    ∃ h1 a h2 b,
      WhereAt [testDB.Select (.ptr (.struct (golangster 0 ""))) []] 0
        (.ptr (.struct (golangster 0 "gernest"))) [] = some (h1, a) ∧
      LimitAt h1 0 5 = some (h2, b) ∧
      BuildQueryAt h1 a = some ("SELECT * FROM golangster WHERE Name='gernest';", [], none) ∧
      BuildQueryAt h2 a =
        some ("SELECT * FROM golangster WHERE Name='gernest'LIMIT LIMIT 5;", [], none) ∧
      BuildQueryAt h2 a ≠ BuildQueryAt h1 a := by
  refine ⟨_, _, _, _, rfl, rfl, rfl, rfl, ?_⟩
  decide

/-- C20, amended: for every session s whose executed flag is set and any two
chain calls made on s one after the other (a := s.Where(x), then
b := s.Limit(n)), a and b are two new sessions and the query rendered from a
after the second call is the same as the query rendered from a before it. -/
theorem branching_from_executed (h : Store) (p : Nat) (s : SQL) (x : GoValue) (args : List Arg)
    (n : Int) (h1 h2 : Store) (a b : Nat) (hs : h[p]? = some s) (hd : s.isDone = true)
    (hw : WhereAt h p x args = some (h1, a)) (hl : LimitAt h1 p n = some (h2, b)) :
    BuildQueryAt h2 a = BuildQueryAt h1 a ∧ h2[a]? = h1[a]? ∧ a ≠ p ∧ b ≠ p ∧ b ≠ a := by
  have hp : p < h.length := by
    rcases Nat.lt_or_ge p h.length with hlt | hge
    · exact hlt
    · rw [List.getElem?_eq_none hge] at hs
      exact absurd hs (by simp)
  unfold WhereAt at hw
  cases hm : s.Where x args with
  | none => simp [chainCall, hs, hm] at hw
  | some d =>
    rw [chainCall_of_done hs hd _ hm] at hw
    injection hw with hw
    injection hw with hh1 ha
    subst hh1
    subst ha
    have hs1 : (h ++ [d])[p]? = some s := by
      rw [List.getElem?_append_left hp]
      exact hs
    unfold LimitAt at hl
    have hcall := chainCall_of_done hs1 hd (fun s => some (s.Limit n)) rfl
    rw [hcall] at hl
    injection hl with hl
    injection hl with hh2 hb
    subst hh2
    subst hb
    have hget : (h ++ [d] ++ [s.Limit n])[h.length]? = (h ++ [d])[h.length]? := by
      rw [List.getElem?_append_left (by simp)]
    refine ⟨?_, hget, ?_, ?_, ?_⟩
    · simp only [BuildQueryAt, hget]
    · omega
    · simp only [List.length_append, List.length_singleton]
      omega
    · simp only [List.length_append, List.length_singleton]
      omega

theorem branching_from_executed_witness :
    BuildQueryAt [executedDB,
        { executedDB.Copy with clause :=
          { Clauses.empty with where_ := some { condition := " id=2", args := [] } } },
        executedDB.Limit 5] 1 =
      BuildQueryAt [executedDB,
        { executedDB.Copy with clause :=
          { Clauses.empty with where_ := some { condition := " id=2", args := [] } } }] 1 :=
  (branching_from_executed [executedDB] 0 executedDB (.val (.str " id=2")) [] 5
    [executedDB, { executedDB.Copy with clause :=
      { Clauses.empty with where_ := some { condition := " id=2", args := [] } } }]
    [executedDB, { executedDB.Copy with clause :=
      { Clauses.empty with where_ := some { condition := " id=2", args := [] } } },
      executedDB.Limit 5] 1 2
    rfl rfl rfl rfl).1

/-! ## Bind, Copy and the count clause -/

/-- `BuildQuery` does not read the count clause of a session without select
clause. -/
theorem BuildQuery_count_irrelevant (s : SQL) (cnt : Option Clause)
    (hsel : s.clause.dbSelect = none) :
    ({ s with clause := { s.clause with count := cnt } } : SQL).BuildQuery = s.BuildQuery := by
  simp only [SQL.BuildQuery, buildSelect, buildWhere, buildOffset, buildLimit, hsel]

/-- C21: for every session and every destination that is not a pointer, Bind
returns an error without sending any query to the database and without
writing anything: the destination, the extra targets and the session (its
clauses and its executed flag too) are as before the call. -/
theorem Bind_non_pointer (s : SQL) (conn : Database) (value : GoValue) (args : List GoValue)
    (hv : value.isPtr = false) :
    ∃ r, s.Bind conn value args = some r ∧ r.err = some "non pointer argument" ∧
      r.queries = [] ∧ r.value = value ∧ r.args = args ∧ r.session = s ∧
      r.session.clause = s.clause ∧ r.session.isDone = s.isDone := by
  cases value with
  | ptr e => simp [GoValue.isPtr] at hv
  | nilPtr t => simp [GoValue.isPtr] at hv
  | nil => exact ⟨_, rfl, rfl, rfl, rfl, rfl, rfl, rfl, rfl⟩
  | val v => exact ⟨_, rfl, rfl, rfl, rfl, rfl, rfl, rfl, rfl⟩
  | struct v => exact ⟨_, rfl, rfl, rfl, rfl, rfl, rfl, rfl, rfl⟩

theorem Bind_non_pointer_witness :
    ∃ r, testDB.Bind noRows (.struct (golangster 0 "")) [] = some r ∧
      r.err = some "non pointer argument" ∧ r.queries = [] ∧
      r.value = .struct (golangster 0 "") ∧ r.session.isDone = false := by
  obtain ⟨r, h, he, hq, hv, _, _, _, hd⟩ :=
    Bind_non_pointer testDB noRows (.struct (golangster 0 "")) [] rfl
  exact ⟨r, h, he, hq, hv, hd⟩

/-- C27: a count clause is rendered only together with a select clause. For a
session whose select clause is unset BuildQuery returns the same result
whatever the count clause is: after Count(c) it returns what it returns for
the session Count worked on, and a session on which only Count(c) was called
renders ";". -/
theorem Count_without_select (s : SQL) (c : String) (hsel : s.clause.dbSelect = none) :
    (∀ cnt : Option Clause,
      ({ s with clause := { s.clause with count := cnt } } : SQL).BuildQuery = s.BuildQuery) ∧
    (s.Count c).BuildQuery = s.CopyQuery.BuildQuery ∧
    (s.clause.where_ = none → s.clause.offset = none → s.clause.limit = none →
      (s.Count c).BuildQuery = some (";", [], none)) := by
  have hsel2 : s.CopyQuery.clause.dbSelect = none := by
    rcases CopyQuery_clause_cases s with h | h
    · rw [h]; exact hsel
    · rw [h]; rfl
  have h2 : (s.Count c).BuildQuery = s.CopyQuery.BuildQuery :=
    BuildQuery_count_irrelevant s.CopyQuery
      (some { condition := " COUNT (" ++ c ++ ") ", args := [] }) hsel2
  refine ⟨fun cnt => BuildQuery_count_irrelevant s cnt hsel, h2, ?_⟩
  intro hw ho hl
  rw [h2]
  have hw2 : s.CopyQuery.clause.where_ = none := by
    rcases CopyQuery_clause_cases s with h | h
    · rw [h]; exact hw
    · rw [h]; rfl
  have ho2 : s.CopyQuery.clause.offset = none := by
    rcases CopyQuery_clause_cases s with h | h
    · rw [h]; exact ho
    · rw [h]; rfl
  have hl2 : s.CopyQuery.clause.limit = none := by
    rcases CopyQuery_clause_cases s with h | h
    · rw [h]; exact hl
    · rw [h]; rfl
  simp only [SQL.BuildQuery, buildSelect, buildWhere, buildOffset, buildLimit, hsel2, hw2, ho2, hl2,
    cleanArgs]
  simp

theorem Count_without_select_witness :
    (testDB.Count "*").BuildQuery = testDB.CopyQuery.BuildQuery ∧
    (testDB.Count "*").BuildQuery = some (";", [], none) := by
  have h := Count_without_select testDB "*" rfl
  exact ⟨h.2.1, h.2.2 rfl rfl rfl⟩

/-- C28: Copy keeps the connection, the registry and the adopter of its source
and resets every other field: the six clauses are unset, the executed flag and
verbose are false, and the loader is nil whatever the loader of the source
was, so that struct-mode Bind, creare and update on the copy panic on the call
of the nil loader. -/
theorem Copy_keeps_only_connection (s : SQL) :
    s.Copy.db = s.db ∧ s.Copy.models = s.models ∧ s.Copy.adopter = s.adopter ∧
    (s.Copy.clause.where_ = none ∧ s.Copy.clause.limit = none ∧ s.Copy.clause.offset = none ∧
      s.Copy.clause.order = none ∧ s.Copy.clause.count = none ∧ s.Copy.clause.dbSelect = none) ∧
    s.Copy.isDone = false ∧ s.Copy.verbose = false ∧ s.Copy.loader = none ∧
    (∀ (conn : Database) (r : StructValue) (args : List GoValue),
      s.Copy.Bind conn (.ptr (.struct r)) args = none) ∧
    (∀ model : GoValue, s.Copy.creare model = none) ∧
    (∀ model : GoValue, s.Copy.update model = none) :=
  ⟨rfl, rfl, rfl, ⟨rfl, rfl, rfl, rfl, rfl, rfl⟩, rfl, rfl, rfl,
    fun _ _ _ => rfl, fun _ => rfl, fun _ => rfl⟩

/-! ## postgres.go: what Create returns -/

theorem postgresql_Field_ok {f : Field} (h : postgresql.details f ≠ "") :
    postgresql.Field f = .ok (columnDef f) := by
  have h2 : (postgresql.details f == "") = false := by simpa using h
  simp only [postgresql.Field, h2, Bool.false_eq_true, if_false, columnDef]
  congr 1

theorem postgresql_Field_error {f : Field} (h : postgresql.details f = "") :
    postgresql.Field f = .error (" unknown type for field " ++ kindString f.typ.kind) := by
  simp [postgresql.Field, h]

/-- The loop of Create over fields that all have a mapping. -/
theorem createLoop_mapped (fs : List Field) (hfs : ∀ f ∈ fs, postgresql.details f ≠ "") :
    ∀ (k : Nat) (buf : String) (size : Nat), size = k + fs.length →
      postgresql.createLoop size fs k buf = some (buf ++ joinWith "," (fs.map columnDef)) := by
  induction fs with
  | nil => intro k buf size _; simp [postgresql.createLoop, joinWith]
  | cons v rest ih =>
    intro k buf size hsize
    have hv := postgresql_Field_ok (hfs v (List.mem_cons_self _ _))
    have hrest : ∀ f ∈ rest, postgresql.details f ≠ "" :=
      fun f hf => hfs f (List.mem_cons_of_mem _ hf)
    rw [postgresql.createLoop, hv]
    simp only [List.length_cons] at hsize
    cases rest with
    | nil =>
      have hk : (k == size - 1) = true := by
        simp only [List.length_nil] at hsize
        simp only [beq_iff_eq]
        omega
      simp [hk, joinWith]
    | cons w rest2 =>
      have hk : (k == size - 1) = false := by
        simp only [List.length_cons] at hsize
        simp only [beq_eq_false_iff_ne, ne_eq]
        omega
      simp only [hk, Bool.false_eq_true, if_false]
      rw [ih hrest (k + 1) _ size (by omega)]
      simp only [List.map_cons, joinWith]
      congr 1
      apply String.ext
      simp

/-- The loop of Create stops with `return "", nil` at the first field without
mapping. -/
theorem createLoop_unmapped (fs : List Field) {f : Field} (hf : f ∈ fs)
    (hd : postgresql.details f = "") :
    ∀ (k : Nat) (buf : String) (size : Nat), size = k + fs.length →
      postgresql.createLoop size fs k buf = none := by
  induction fs with
  | nil => simp at hf
  | cons v rest ih =>
    intro k buf size hsize
    rw [postgresql.createLoop]
    by_cases hv : postgresql.details v = ""
    · simp [postgresql_Field_error hv]
    · have hmem : f ∈ rest := by
        rcases List.mem_cons.1 hf with h | h
        · subst h; exact absurd hd hv
        · exact h
      have hpos : 0 < rest.length := List.length_pos_of_mem hmem
      simp only [List.length_cons] at hsize
      have hk : (k == size - 1) = false := by
        simp only [beq_eq_false_iff_ne, ne_eq]
        omega
      simp only [postgresql_Field_ok hv, hk, Bool.false_eq_true, if_false]
      exact ih hmem (k + 1) _ size (by omega)

/-- What Create returns for a table whose fields all have a mapping: the
column definitions use the column names (`ColumnName`). -/
theorem Create_mapped (t : Table) (hne : t.fields ≠ [])
    (hfs : ∀ f ∈ t.fields, postgresql.details f ≠ "") :
    postgresql.Create t =
      ("CREATE TABLE IF NOT EXISTS " ++ t.Name ++ " (" ++ joinWith "," (t.fields.map columnDef) ++ ");",
        none) := by
  have hne2 : (t.fields != []) = true := by simpa using hne
  have h := createLoop_mapped t.fields hfs 0 ("" ++ ("CREATE TABLE IF NOT EXISTS " ++ t.Name ++ " ("))
    t.fields.length (by omega)
  simp only [postgresql.Create, Table.Fields, hne2, if_true, h]
  congr 1

/-- What Create returns for a table with a field without mapping: the empty
statement and a nil error. -/
theorem Create_unmapped (t : Table) {f : Field} (hf : f ∈ t.fields)
    (hd : postgresql.details f = "") : postgresql.Create t = ("", none) := by
  have hne : t.fields ≠ [] := List.ne_nil_of_mem hf
  have hne2 : (t.fields != []) = true := by simpa using hne
  have h := createLoop_unmapped t.fields hf hd 0 ("" ++ ("CREATE TABLE IF NOT EXISTS " ++ t.Name ++ " ("))
    t.fields.length (by omega)
  simp only [postgresql.Create, Table.Fields, hne2, if_true, h]

/-- C24: the column definitions of postgresql.Create do not use the declared
field names. For the table loaded from postgresTest the code returns
"CREATE TABLE IF NOT EXISTS postgres_test (id serial,body text,created_at
timestamp with time zone,updated_at timestamp with time zone);", with the
column names of ColumnName, and not the statement TestPostgres_Create expects. -/
theorem Create_uses_column_names :
    (∃ t, loadTable (.ptr (.struct postgresTest)) = .ok t ∧
      postgresql.Create t =
        ("CREATE TABLE IF NOT EXISTS postgres_test (id serial,body text,created_at timestamp with time zone,updated_at timestamp with time zone);",
          none) ∧
      postgresql.Create t ≠
        ("CREATE TABLE IF NOT EXISTS postgres_test (ID serial,Body text,CreatedAt timestamp with time zone,UpdatedAt timestamp with time zone);",
          none)) := by
  refine ⟨_, loadTable_ptr_struct postgresTest, ?_, ?_⟩ <;> decide

/-- C25: an unsupported field type is not reported by postgresql.Create. For
every table with a field without PostgreSQL mapping Create returns the empty
statement with a nil error; the table loaded from product, which has a float64
field, is one of them, and postgresql.Field fails on that field. -/
theorem Create_hides_unsupported_type :
    (∀ (t : Table) (f : Field), f ∈ t.fields →
      postgresql.Field f = .error (" unknown type for field " ++ kindString f.typ.kind) →
      postgresql.Create t = ("", none)) ∧
    (∃ t, loadTable (.ptr (.struct product)) = .ok t ∧
      t.fields.map postgresql.Field =
        [.ok "id bigserial", .error " unknown type for field float64"] ∧
      postgresql.Create t = ("", none)) := by
  constructor
  · intro t f hf herr
    apply Create_unmapped t hf
    by_contra hne
    rw [postgresql_Field_ok hne] at herr
    exact absurd herr (by simp)
  · refine ⟨_, loadTable_ptr_struct product, ?_, ?_⟩
    · rfl
    · decide

/-! ## update and Where on records with a mapped field -/

/-- The session `Where` returns for a pointer to a record with a mapped field:
the where clause is set, its condition is the concatenation of the terms of
the set fields. -/
theorem Where_record_fields (s : SQL) {r : StructValue} (hr : IsRecord r)
    (hf : tableFields r.typ ≠ []) (args : List Arg) :
    s.Where (.ptr (.struct r)) args =
      some { s.CopyQuery with clause := { s.CopyQuery.clause with
        where_ := some ⟨String.join ((setFields r).map whereTerm), []⟩ } } := by
  have hv := Values_record hr (tabulizeName r.typ.name)
  simp only [hf, if_false] at hv
  have hk := whereKeyVal_spec (setFields r) (setFields_ne_nil r) [] ""
  simp only [List.nil_append, List.length_nil] at hk
  have hjoin : (setFields r).foldl (fun acc p => acc ++ (" " ++ p.1.name ++ "=" ++ quoted p.2)) "" =
      String.join ((setFields r).map whereTerm) := by
    unfold String.join
    rw [List.foldl_map]
    rfl
  rw [hjoin] at hk
  simp only [SQL.Where, loadTable_ptr_struct, hv, hk]

/-- Rendering of a session with a where clause and neither offset nor limit
clause: the select part, then " WHERE" and the condition, then ";". -/
theorem BuildQuery_where_last (d : SQL) (w : Clause) (hw : d.clause.where_ = some w)
    (ho : d.clause.offset = none) (hl : d.clause.limit = none) :
    d.BuildQuery =
      some ((buildSelect d.clause).1 ++ " WHERE" ++ w.condition ++ ";",
        cleanArgs (buildWhere d.clause (buildSelect d.clause)).2, none) := by
  simp only [SQL.BuildQuery, buildOffset, buildLimit, ho, hl]
  have h1 : (buildWhere d.clause (buildSelect d.clause)).1 =
      (buildSelect d.clause).1 ++ " WHERE" ++ w.condition := by
    simp only [buildWhere, hw]
    cases d.clause.dbSelect <;> simp [String.append_assoc]
  rw [← h1]

/-- C26, as the claim states it, fails: for the record member{ID: 1, Name:
"x"}, which has two set fields, Where builds no condition: it panics when
Values reads the field `secret`, which is not exported. -/
theorem Where_panics_on_member :
    setFields (member 1 "x" "") =
        [({ name := "ID", typ := ⟨Kind.Int64, "int64"⟩, tag := "" }, Value.int64 1),
         ({ name := "Name", typ := ⟨Kind.String, "string"⟩, tag := "" }, Value.str "x")] ∧
      testDB.Where (.ptr (.struct (member 1 "x" ""))) [] = none := by
  refine ⟨by decide, rfl⟩

/-- C26, amended: for a record whose mapped fields are all exported, the where
condition built by Where(record) is the plain concatenation, over the set
fields of the record in table order, of " <column>=<quoted
value>", with nothing else between the terms. With no set field the where
clause is still set, with an empty condition, and the statement rendered
(without offset and limit clause) ends with " WHERE" immediately followed by
";". -/
theorem Where_condition_concatenation (s : SQL) (r : StructValue) (args : List Arg)
    (hr : IsRecord r) (hf : tableFields r.typ ≠ []) :
    ∃ d, s.Where (.ptr (.struct r)) args = some d ∧
      d.clause = { s.CopyQuery.clause with
        where_ := some ⟨String.join ((setFields r).map whereTerm), []⟩ } ∧
      (∀ f v, whereTerm (f, v) = " " ++ f.name ++ "=" ++ quoted v) ∧
      (setFields r = [] →
        d.clause.where_ = some ⟨"", []⟩ ∧
        (s.clause.offset = none → s.clause.limit = none →
          ∃ pre qargs, d.BuildQuery = some (pre ++ " WHERE" ++ ";", qargs, none))) ∧
      (∀ p ∈ setFields r, quote p.2 = some (quoted p.2)) := by
  refine ⟨_, Where_record_fields s hr hf args, rfl, fun _ _ => rfl, ?_,
    fun p hp => quote_of_ne_nil (setFields_ne_nil r p hp)⟩
  intro hnil
  rw [hnil]
  refine ⟨rfl, ?_⟩
  intro ho hl
  have ho2 : s.CopyQuery.clause.offset = none := by
    rcases CopyQuery_clause_cases s with h | h
    · rw [h]; exact ho
    · rw [h]; rfl
  have hl2 : s.CopyQuery.clause.limit = none := by
    rcases CopyQuery_clause_cases s with h | h
    · rw [h]; exact hl
    · rw [h]; rfl
  have h := BuildQuery_where_last
    { s.CopyQuery with clause := { s.CopyQuery.clause with
        where_ := some ⟨String.join (([] : List (StructField × Value)).map whereTerm), []⟩ } }
    ⟨"", []⟩ rfl ho2 hl2
  rw [String.append_empty] at h
  exact ⟨_, _, h⟩

theorem Where_condition_concatenation_witness :
    (∃ d, testDB.Where (.ptr (.struct (golangster 1 "x"))) [] = some d ∧
      d.clause.where_ = some ⟨" ID=1 Name='x'", []⟩) ∧
    (∃ d, testDB.Where (.ptr (.struct (golangster 0 ""))) [] = some d ∧
      d.clause.where_ = some ⟨"", []⟩ ∧ d.BuildQuery = some (" WHERE;", [], none)) ∧
    (∃ d, testDB.Where (.ptr (.struct (note (Value.int 0) "" (Value.str "")))) [] = some d ∧
      d.clause.where_ = some ⟨" X=0 Y=''", []⟩) := by
  obtain ⟨d, hd, hcl, _, _⟩ :=
    Where_condition_concatenation testDB (golangster 1 "x") [] (by decide) (by decide)
  obtain ⟨e, he, _, _, hnil, _⟩ :=
    Where_condition_concatenation testDB (golangster 0 "") [] (by decide) (by decide)
  obtain ⟨g, hg, hgcl, _, _⟩ :=
    Where_condition_concatenation testDB (note (Value.int 0) "" (Value.str "")) []
      (by decide) (by decide)
  refine ⟨⟨d, hd, ?_⟩, ⟨e, he, (hnil (by decide)).1, ?_⟩, ⟨g, hg, ?_⟩⟩
  rotate_left
  · have h2 : testDB.Where (.ptr (.struct (golangster 0 ""))) [] =
        some { testDB with clause := { testDB.clause with where_ := some ⟨"", []⟩ } } := rfl
    rw [h2] at he
    injection he with he
    rw [← he]
    rfl
  · rw [hgcl]
    decide
  · rw [hcl]
    decide

/-! ## tabulizeName terminates and slices inside its input -/

theorem sliceChecked_of_le {s : Bytes} {lo hi : Nat} (h1 : lo ≤ hi) (h2 : hi ≤ s.length) :
    sliceChecked s lo hi = some ((s.take hi).drop lo) := if_pos ⟨h1, h2⟩

theorem sliceFromChecked_of_le {s : Bytes} {lo : Nat} (h : lo ≤ s.length) :
    sliceFromChecked s lo = some (s.drop lo) := if_pos h

theorem sliceToChecked_of_le {s : Bytes} {hi : Nat} (h : hi ≤ s.length) :
    sliceToChecked s hi = some (s.take hi) := if_pos h

/-- Every index a `range` over a string yields is the index of a byte of it. -/
theorem rangeFrom_bounds (s : Bytes) :
    ∀ (skip i : Nat), ∀ p ∈ rangeFrom skip i s, i ≤ p.1 ∧ p.1 < i + s.length := by
  induction s with
  | nil => intro skip i p hp; simp [rangeFrom] at hp
  | cons b rest ih =>
    intro skip i p hp
    simp only [List.length_cons]
    cases skip with
    | zero =>
      simp only [rangeFrom, List.mem_cons] at hp
      rcases hp with rfl | hp
      · simp
      · have := ih _ (i + 1) p hp
        omega
    | succ k =>
      simp only [rangeFrom] at hp
      have := ih k (i + 1) p hp
      omega

/-- The indices a `range` over a string yields increase. -/
theorem rangeFrom_sorted (s : Bytes) :
    ∀ (skip i : Nat), (rangeFrom skip i s).Pairwise (fun a b => a.1 < b.1) := by
  induction s with
  | nil => intro skip i; simp [rangeFrom]
  | cons b rest ih =>
    intro skip i
    cases skip with
    | zero =>
      simp only [rangeFrom]
      rw [List.pairwise_cons]
      refine ⟨?_, ih _ _⟩
      intro p hp
      have := (rangeFrom_bounds rest _ (i + 1) p hp).1
      show i < p.1
      omega
    | succ k =>
      simp only [rangeFrom]
      exact ih k (i + 1)

theorem rangeFrom_length_le (s : Bytes) :
    ∀ (skip i : Nat), (rangeFrom skip i s).length ≤ s.length := by
  induction s with
  | nil => intro skip i; simp [rangeFrom]
  | cons b rest ih =>
    intro skip i
    cases skip with
    | zero =>
      simp only [rangeFrom, List.length_cons]
      have := ih ((decodeRune (b :: rest)).2 - 1) (i + 1)
      omega
    | succ k =>
      simp only [rangeFrom, List.length_cons]
      have := ih k (i + 1)
      omega

/-- After the first loop `capIndex` holds the indices of the runes that
`unicode.IsUpper` accepts, in the order of the `range`. -/
theorem firstLoop_capIndex (u : CaseTables) (its : List (Nat × Nat)) :
    ∀ (fl : Bool) (caps : List Nat),
      (Bytewise.firstLoop u its fl caps).2 =
        caps ++ (its.filter (fun p => u.IsUpper p.2)).map (fun p => p.1) := by
  induction its with
  | nil => intro fl caps; simp [Bytewise.firstLoop]
  | cons p its ih =>
    intro fl caps
    obtain ⟨i, ch⟩ := p
    simp only [Bytewise.firstLoop]
    rw [ih]
    by_cases h : u.IsUpper ch = true
    · simp [h]
    · simp [h]

/-- The byte offsets in `capIndex` increase and lie inside the name. -/
theorem capIndex_sorted_bounded (u : CaseTables) (name : Bytes) :
    ((Bytewise.firstLoop u (rangeFrom 0 0 name) false []).2).Pairwise (fun a b => a < b) ∧
    (∀ x ∈ (Bytewise.firstLoop u (rangeFrom 0 0 name) false []).2, x < name.length) ∧
    (Bytewise.firstLoop u (rangeFrom 0 0 name) false []).2.length ≤ name.length := by
  rw [firstLoop_capIndex, List.nil_append]
  refine ⟨?_, ?_, ?_⟩
  · rw [List.pairwise_map]
    exact (rangeFrom_sorted name 0 0).sublist (List.filter_sublist _)
  · intro x hx
    obtain ⟨p, hp, rfl⟩ := List.mem_map.1 hx
    have := (rangeFrom_bounds name 0 0 p (List.mem_filter.1 hp).1).2
    omega
  · rw [List.length_map]
    exact le_trans (List.length_filter_le _ _) (rangeFrom_length_le name 0 0)

/-- With at least two uppercase positions, the loop started at index `i` with
`left ≤ capIndex[i]` ends with `break END`, without a panic, within as many
iterations as positions remain. -/
theorem run_done (u : CaseTables) (name : Bytes) (fl : Bool) (capIndex : List Nat)
    (h2 : 2 ≤ capIndex.length) :
    ∀ (suffix pre : List Nat) (steps left : Nat) (piling : Bool) (buf : Bytes),
      capIndex = pre ++ suffix → suffix ≠ [] → suffix.Pairwise (fun a b => a < b) →
      (∀ x ∈ suffix, x < name.length) → suffix.length ≤ steps →
      (∀ c ∈ suffix.head?, left ≤ c) →
      ∃ out, Bytewise.run u name fl capIndex steps pre.length left piling buf = .done out := by
  intro suffix
  induction suffix with
  | nil => intro pre steps left piling buf _ h; exact absurd rfl h
  | cons c rest ih =>
    intro pre steps left piling buf hcap _ hsort hbound hsteps hleft
    have hc : c < name.length := hbound c (List.mem_cons_self _ _)
    have hlc : left ≤ c := hleft c (by simp)
    obtain ⟨k, rfl⟩ : ∃ k, steps = k + 1 :=
      ⟨steps - 1, by simp only [List.length_cons] at hsteps; omega⟩
    have hne1 : (capIndex.length == 1) = false := by
      rw [beq_eq_false_iff_ne]; omega
    rw [Bytewise.run]
    simp only [hne1, Bool.false_eq_true, if_false]
    cases rest with
    | nil =>
      have hi : (pre.length == capIndex.length - 1) = true := by
        rw [hcap]; simp
      have hget : capIndex[pre.length]? = some c := by
        rw [hcap, List.getElem?_append_right (le_refl _)]
        simp
      simp only [hi, if_true, hget]
      rw [sliceChecked_of_le hlc (le_of_lt hc), sliceFromChecked_of_le (le_of_lt hc)]
      cases piling
      · exact ⟨_, rfl⟩
      · exact ⟨_, rfl⟩
    | cons next rest =>
      have hi : (pre.length == capIndex.length - 1) = false := by
        rw [beq_eq_false_iff_ne, hcap]
        simp only [List.length_append, List.length_cons]
        omega
      have hget : capIndex[pre.length]? = some c := by
        rw [hcap, List.getElem?_append_right (le_refl _)]
        simp
      have hget1 : capIndex[pre.length + 1]? = some next := by
        rw [hcap, List.getElem?_append_right (by omega)]
        simp
      have hcn : c < next := (List.pairwise_cons.1 hsort).1 next (List.mem_cons_self _ _)
      have hn : next < name.length :=
        hbound next (List.mem_cons_of_mem _ (List.mem_cons_self _ _))
      have hbufs : (if (pre.length == 0 && fl) = true
            then (sliceToChecked name c).map (Bytewise.writeSnake u buf) else some buf) =
          some (if (pre.length == 0 && fl) = true
            then Bytewise.writeSnake u buf (name.take c) else buf) := by
        rw [sliceToChecked_of_le (le_of_lt hc)]
        split <;> rfl
      have hstep : ∀ (l : Nat) (p : Bool) (b : Bytes), l ≤ next →
          ∃ out, Bytewise.run u name fl capIndex k (pre.length + 1) l p b = .done out := by
        intro l p b hl
        have h := ih (pre ++ [c]) k l p b (by rw [hcap]; simp) (by simp)
          (List.pairwise_cons.1 hsort).2
          (fun x hx => hbound x (List.mem_cons_of_mem _ hx))
          (by simp only [List.length_cons] at hsteps ⊢; omega)
          (by intro x hx; simp at hx; omega)
        rw [List.length_append, List.length_singleton] at h
        exact h
      simp only [hi, Bool.false_eq_true, if_false, hget, hget1, hbufs]
      by_cases hp1 : (piling && next - c != 1) = true
      · simp only [hp1, if_true]
        rw [sliceChecked_of_le hlc (le_of_lt hc), sliceChecked_of_le (le_of_lt hcn) (le_of_lt hn)]
        exact hstep _ _ _ (le_refl _)
      · simp only [hp1, Bool.false_eq_true, if_false]
        by_cases hp2 : (next - c == 1) = true
        · simp only [hp2, if_true]
          apply hstep
          split <;> omega
        · simp only [hp2, Bool.false_eq_true, if_false]
          rw [sliceChecked_of_le (le_trans hlc (le_of_lt hcn)) (le_of_lt hn)]
          exact hstep _ _ _ (le_refl _)

/-- C23: tabulizeName is total. For every input string, taken as its bytes
(valid UTF-8 or not), and whatever the Unicode tables say, the `for` loop ends
with `break END` within as many iterations as `capIndex` has entries (at most
the length of the name), every index into `capIndex` and every slice of the
name passes its run-time check, and a string is returned. -/
theorem tabulizeName_total (u : CaseTables) (name : Bytes) (steps : Nat)
    (h : (Bytewise.firstLoop u (rangeFrom 0 0 name) false []).2.length ≤ steps) :
    (∃ out, Bytewise.tabulizeName u steps name = .done out) ∧
      (Bytewise.firstLoop u (rangeFrom 0 0 name) false []).2.length ≤ name.length := by
  obtain ⟨hs, hb, hle⟩ := capIndex_sorted_bounded u name
  refine ⟨?_, hle⟩
  unfold Bytewise.tabulizeName
  by_cases h1 : (name == bytesOf "") = true
  · simp only [h1, if_true]
    exact ⟨_, rfl⟩
  · simp only [h1, Bool.false_eq_true, if_false]
    by_cases h3 : (u.ToLower name == bytesOf "id") = true
    · simp only [h3, if_true]
      exact ⟨_, rfl⟩
    · simp only [h3, Bool.false_eq_true, if_false]
      generalize (Bytewise.firstLoop u (rangeFrom 0 0 name) false []).1 = fl
      generalize hcaps : (Bytewise.firstLoop u (rangeFrom 0 0 name) false []).2 = caps at h hb hs
      cases caps with
      | nil => exact ⟨_, rfl⟩
      | cons c rest =>
        have hc : c < name.length := hb c (List.mem_cons_self _ _)
        cases rest with
        | nil =>
          obtain ⟨k, rfl⟩ : ∃ k, steps = k + 1 :=
            ⟨steps - 1, by simp only [List.length_cons] at h; omega⟩
          simp only [List.length_singleton]
          rw [Bytewise.run]
          simp only [List.length_singleton, beq_self_eq_true, if_true]
          by_cases hc0 : (c == 0) = true
          · simp only [List.getElem?_cons_zero, hc0, if_true]
            exact ⟨_, rfl⟩
          · simp only [List.getElem?_cons_zero, hc0, Bool.false_eq_true, if_false]
            rw [sliceChecked_of_le (Nat.zero_le _) (le_of_lt hc),
              sliceFromChecked_of_le (le_of_lt hc)]
            exact ⟨_, rfl⟩
        | cons next rest =>
          have hrun := run_done u name fl (c :: next :: rest)
            (by simp) (c :: next :: rest) [] steps 0 false [] rfl (by simp) hs
            hb h (by simp)
          simp only [List.length_nil] at hrun
          simpa using hrun

theorem tabulizeName_total_witness :
    (Bytewise.firstLoop latinTables (rangeFrom 0 0 (bytesOf "normalPILLINGStuffs")) false []).2.length
        ≤ 8 ∧
      (∃ out, Bytewise.tabulizeName latinTables 8 (bytesOf "normalPILLINGStuffs") = .done out) ∧
      Bytewise.tabulizeName latinTables 8 (bytesOf "normalPILLINGStuffs") =
        .done (bytesOf "normal_pilling_stuffs") ∧
      (Bytewise.firstLoop latinTables (rangeFrom 0 0 (bytesOf "ÉcoleName")) false []).2 = [0, 6] ∧
      Bytewise.tabulizeName latinTables 2 (bytesOf "ÉcoleName") = .done (bytesOf "école_name") ∧
      (∃ out, Bytewise.tabulizeName latinTables 0 [255, 254] = .done out) :=
  ⟨by decide,
    (tabulizeName_total latinTables (bytesOf "normalPILLINGStuffs") 8 (by decide)).1,
    by decide, by decide, by decide,
    (tabulizeName_total latinTables [255, 254] 0 (by decide)).1⟩

end Orange
